/-
Verification of the Dataverse MCP server's agent-chat endpoint and its
in-memory trace storage.

The development shallowly embeds two source modules:

* `server/trace_storage.py` — class `TraceStorage` (an `OrderedDict`-backed,
  size-bounded trace store with spans), embedded as a Lean structure with
  explicit state passing.  Python's `time.time()` calls become explicit `now`
  parameters, and `uuid.uuid4()` calls become explicit fresh-identifier
  parameters.
* `server/routers/agent_chat.py` — the `agent_chat` endpoint, embedded as a
  pure function over an abstract Model Gateway (`call_foundation_model` is a
  parameter producing either a response or a raised-exception message) and
  abstract tool handlers.  Raising `HTTPException` is modelled by returning
  `Except.error`; JSON values are modelled by the inductive `JValue`, and
  `json.dumps`/`json.loads` round-trips are modelled by carrying the
  structured value itself.
-/
import Mathlib

set_option maxRecDepth 4000

/-- A JSON value, as produced/consumed by the Python code's dicts. -/
inductive JValue where
  | null : JValue
  | bool : Bool → JValue
  | str : String → JValue
  | num : Int → JValue
  | arr : List JValue → JValue
  | obj : List (String × JValue) → JValue
deriving Repr

/-- A span record, from `TraceStorage.add_span` / `complete_span`.
The Python span dict gains the `end_time_ms`, `duration_ms` and `outputs`
keys only upon completion, hence the `Option` fields. -/
structure Span where
  span_id : String
  name : String
  span_type : String
  start_time_ms : Nat
  status : String
  inputs : JValue
  parent_id : Option String
  end_time_ms : Option Nat := none
  duration_ms : Option Int := none
  outputs : Option JValue := none
deriving Repr

/-- A trace record, from `TraceStorage.create_trace` / `complete_trace`. -/
structure Trace where
  trace_id : String
  request_id : String
  timestamp_ms : Nat
  status : String
  spans : List Span
  user_message : String
  execution_time_ms : Option Int := none
deriving Repr

/-- The store: `max_traces` bound plus the `OrderedDict` of traces,
embedded as an insertion-ordered association list. -/
structure TraceStorage where
  max_traces : Nat
  traces : List (String × Trace)
deriving Repr

namespace TraceStorage

/-- Keys of the ordered mapping, in insertion order. -/
def keys (s : TraceStorage) : List String := s.traces.map Prod.fst

/-- The `OrderedDict` assignment `d[k] = v`: replace in place if the key exists
(keeping its position), otherwise append at the end. -/
def odSet : List (String × Trace) → String → Trace → List (String × Trace)
  | [], k, v => [(k, v)]
  | (k', v') :: rest, k, v =>
      if k' = k then (k, v) :: rest else (k', v') :: odSet rest k v

/-- The `OrderedDict` lookup `d.get(k)`. -/
def odGet : List (String × Trace) → String → Option Trace
  | [], _ => none
  | (k', v') :: rest, k => if k' = k then some v' else odGet rest k

/-- The `while len(self.traces) > self.max_traces: self.traces.popitem(last=False)`
eviction loop: drop oldest entries while the bound is exceeded. -/
def evict (maxT : Nat) : List (String × Trace) → List (String × Trace)
  | [] => []
  | x :: xs => if xs.length + 1 > maxT then evict maxT xs else x :: xs

/-- Python `TraceStorage.create_trace(request_id, user_message)`.  `time.time()*1000`
is the explicit `now`; the `uuid.uuid4()` fallback for a falsy `request_id`
is the explicit `fresh` parameter. -/
def create_trace (s : TraceStorage) (request_id user_message fresh : String)
    (now : Nat) : String × TraceStorage :=
  let trace_id := if request_id = "" then fresh else request_id
  let trace : Trace :=
    { trace_id := trace_id
      request_id := trace_id
      timestamp_ms := now
      status := "IN_PROGRESS"
      spans := []
      user_message := user_message }
  let traces := odSet s.traces trace_id trace
  (trace_id, { s with traces := evict s.max_traces traces })

/-- Python `TraceStorage.add_span(trace_id, span_type, name, inputs, parent_id)`.
The `str(uuid.uuid4())[:12]` span identifier is the explicit `fresh`
parameter.  Unknown `trace_id` returns `""` and leaves the store unchanged. -/
def add_span (s : TraceStorage) (trace_id span_type name : String)
    (inputs : JValue) (parent_id : Option String) (fresh : String)
    (now : Nat) : String × TraceStorage :=
  match odGet s.traces trace_id with
  | none => ("", s)
  | some tr =>
      let span : Span :=
        { span_id := fresh
          name := name
          span_type := span_type
          start_time_ms := now
          status := "RUNNING"
          inputs := inputs
          parent_id := parent_id }
      (fresh, { s with traces := odSet s.traces trace_id { tr with spans := tr.spans ++ [span] } })

/-- The update applied to the matching span by `complete_span`: stamp the
end time, compute the duration, record outputs and the final status. -/

def completeSpanRecord (sp : Span) (outputs : JValue) (status : String)
    (now : Nat) : Span :=
  { sp with
      end_time_ms := some now
      duration_ms := some ((now : Int) - (sp.start_time_ms : Int))
      outputs := some outputs
      status := status }

/-- The `for span in spans: if span['span_id'] == span_id: ...; break` body of
`complete_span`: update the first matching span, leave the rest untouched. -/
def completeFirst (span_id : String) (outputs : JValue) (status : String)
    (now : Nat) : List Span → List Span
  | [] => []
  | sp :: rest =>
      if sp.span_id = span_id then
        completeSpanRecord sp outputs status now :: rest
      else sp :: completeFirst span_id outputs status now rest

/-- Python `TraceStorage.complete_span(trace_id, span_id, outputs, status)`.
The Python default `outputs or {}` is applied by callers passing a concrete
object; unknown trace or span ids leave the store unchanged. -/
def complete_span (s : TraceStorage) (trace_id span_id : String)
    (outputs : JValue) (status : String) (now : Nat) : TraceStorage :=
  match odGet s.traces trace_id with
  | none => s
  | some tr =>
      let tr' := { tr with spans := completeFirst span_id outputs status now tr.spans }
      { s with traces := odSet s.traces trace_id tr' }

/-- Python `TraceStorage.complete_trace(trace_id, status)`. -/
def complete_trace (s : TraceStorage) (trace_id status : String)
    (now : Nat) : TraceStorage :=
  match odGet s.traces trace_id with
  | none => s
  | some tr =>
      let tr' := { tr with
        status := status
        execution_time_ms := some ((now : Int) - (tr.timestamp_ms : Int)) }
      { s with traces := odSet s.traces trace_id tr' }

/-- Python `TraceStorage.get_trace(trace_id)`. -/
def get_trace (s : TraceStorage) (trace_id : String) : Option Trace :=
  odGet s.traces trace_id

/-- Python `TraceStorage.get_total_traces()`. -/
def get_total_traces (s : TraceStorage) : Nat := s.traces.length

/-- A store whose mapping ends with the distinguished entry `(tid, tr)`. -/
def withTrace (mx : Nat) (L : List (String × Trace)) (tid : String)
    (tr : Trace) : TraceStorage :=
  ⟨mx, L ++ [(tid, tr)]⟩

/-- The freshly created trace record. -/
def initTrace (tid msg : String) (now : Nat) : Trace :=
  { trace_id := tid, request_id := tid, timestamp_ms := now,
    status := "IN_PROGRESS", spans := [], user_message := msg }

end TraceStorage

/-! ## Embedding of `server/routers/agent_chat.py` -/

/-- A tool call as read from the model response:
`tool_call['id']`, `tool_call['function']['name']`,
`tool_call['function']['arguments']`.  The arguments are modelled as the
already-decoded JSON value (the code's `json.loads` of the argument string). -/
structure ToolCall where
  id : String
  name : String
  arguments : JValue
deriving Repr

/-- One `response['choices'][i]['message']`: optional text content plus the
(possibly empty) list of tool calls.  Python's falsy check
`message.get('tool_calls')` is `tool_calls ≠ []` here (absent and `[]`
both behave as falsy). -/
structure RespMessage where
  content : Option String
  tool_calls : List ToolCall
deriving Repr

/-- One entry of `response['choices']`. -/
structure Choice where
  message : RespMessage
deriving Repr

/-- The Model Gateway's decoded JSON body. -/
structure ModelResponse where
  choices : List Choice
deriving Repr

/-- A message of the conversation sent to the Model Gateway
(`model_messages` in the code).  `content` is a JSON value: plain text for
system/user/assistant messages, and the serialized tool result for `tool`
messages (`json.dumps` is modelled by the structured value itself). -/
structure MMsg where
  role : String
  content : Option JValue := none
  tool_call_id : Option String := none
  tool_calls : List ToolCall := []
deriving Repr

/-- Pydantic `ChatMessage` (the caller-facing message model). -/
structure ChatMessage where
  role : String
  content : String
  tool_calls : List ToolCall := []
deriving Repr

/-- Pydantic `AgentChatRequest`.  The float `temperature` is passed through
opaquely to the gateway and does not influence any control flow, so it is
not modelled. -/
structure AgentChatRequest where
  messages : List ChatMessage
  model : String := "databricks-claude-sonnet-4"
  max_tokens : Nat := 2048
deriving Repr

/-- Pydantic `AgentChatResponse`: the success payload of the endpoint. -/
structure AgentChatResponse where
  response : String
  trace_id : Option String := none
  tool_calls : Option (List JValue) := none
deriving Repr

/-- The declared field names of the pydantic `AgentChatResponse` model, in
declaration order (`response`, `trace_id`, `tool_calls`). -/
def AgentChatResponse.fieldNames : List String := ["response", "trace_id", "tool_calls"]

/-- The `fastapi.HTTPException(status_code, detail)` value; raising it is modelled as
returning this value in `Except.error`. -/
structure HTTPError where
  status_code : Nat
  detail : String
deriving Repr

/-- The five tool handlers imported from `server.dataverse_tools`.  Each
takes the decoded arguments and either returns a result dictionary or
raises (modelled by `Except.error` carrying `str(e)`). -/
structure ToolImpls where
  list_tables_impl : JValue → Except String JValue
  describe_table_impl : JValue → Except String JValue
  read_query_impl : JValue → Except String JValue
  create_record_impl : JValue → Except String JValue
  update_record_impl : JValue → Except String JValue

/-- The tool names of the fixed `tools` schema list, in declaration order. -/
def toolNames : List String :=
  ["list_tables", "describe_table", "read_query", "create_record", "update_record"]

/-- The `if tool_name == ... elif ... else` dispatch inside the endpoint's
per-tool-call `try` block; an unknown name yields the structured
`{"success": False, "error": f"Unknown tool: {tool_name}"}` result. -/
def executeTool (impls : ToolImpls) (name : String) (args : JValue) :
    Except String JValue :=
  if name = "list_tables" then impls.list_tables_impl args
  else if name = "describe_table" then impls.describe_table_impl args
  else if name = "read_query" then impls.read_query_impl args
  else if name = "create_record" then impls.create_record_impl args
  else if name = "update_record" then impls.update_record_impl args
  else .ok (.obj [("success", .bool false), ("error", .str ("Unknown tool: " ++ name))])

/-- One element of the endpoint's `tool_results` list (Anthropic format):
`{"type": "tool_result", "tool_use_id": ..., "content": json.dumps(result)}`.
The serialized content is carried structurally. -/
structure ToolResultMsg where
  tool_use_id : String
  content : JValue
deriving Repr

/-- One element of the endpoint's `executed_tools` list:
`{"tool": name, "args": args, "result": result}`. -/
structure ExecutedTool where
  tool : String
  args : JValue
  result : JValue
deriving Repr

/-- As a JSON value, for the `tool_calls` field of the response payload. -/
def ExecutedTool.toJValue (e : ExecutedTool) : JValue :=
  .obj [("tool", .str e.tool), ("args", e.args), ("result", e.result)]

/-- Deterministic stand-in for the `str(uuid.uuid4())[:12]` span identifiers:
the n-th fresh identifier generated during one request.  The code relies on
uuid4 collisions being impossible, so the stand-in is chosen injective. -/
def mkSpanId (n : Nat) : String := String.mk ('s' :: 'p' :: List.replicate n 'x')

/-- The fixed structured-failure result `{"success": False, "error": str(e)}`
built when a tool handler raises. -/
def toolFailure (e : String) : JValue :=
  .obj [("success", .bool false), ("error", .str e)]

/-- Python truthiness of an optional string: `x or default`. -/
def orElseStr (c : Option String) (d : String) : String :=
  match c with
  | none => d
  | some s => if s = "" then d else s

/-- The fallback text used when the chosen message has falsy content. -/
def apologyText : String := "I apologize, but I couldn't generate a response."

/-- The minimal system prompt prepended to the conversation. -/
def systemPromptText : String :=
  "You are a helpful assistant with access to Dataverse data. Use the available tools to answer user questions with actual data."

/-- The `for tool_call in message['tool_calls']` loop: open a TOOL span,
dispatch, complete the span (OK on return, ERROR on a raised exception),
and collect `tool_results` / `executed_tools` in call order.  `ctr` numbers
the fresh span identifiers. -/
def runTools (impls : ToolImpls) (trace_id llm_span_id : String) (now : Nat) :
    List ToolCall → TraceStorage → Nat →
    TraceStorage × Nat × List ToolResultMsg × List ExecutedTool
  | [], st, ctr => (st, ctr, [], [])
  | tc :: rest, st, ctr =>
      let p := st.add_span trace_id "TOOL" tc.name
        (.obj [("arguments", tc.arguments)]) (some llm_span_id) (mkSpanId ctr) now
      let tool_span_id := p.1
      let st1 := p.2
      match executeTool impls tc.name tc.arguments with
      | .ok result =>
          let st2 := st1.complete_span trace_id tool_span_id result "OK" now
          let r := runTools impls trace_id llm_span_id now rest st2 (ctr + 1)
          (r.1, r.2.1, ⟨tc.id, result⟩ :: r.2.2.1, ⟨tc.name, tc.arguments, result⟩ :: r.2.2.2)
      | .error e =>
          let st2 := st1.complete_span trace_id tool_span_id
            (.obj [("error", .str e)]) "ERROR" now
          let r := runTools impls trace_id llm_span_id now rest st2 (ctr + 1)
          (r.1, r.2.1, ⟨tc.id, toolFailure e⟩ :: r.2.2.1,
            ⟨tc.name, tc.arguments, toolFailure e⟩ :: r.2.2.2)

/-- The Model Gateway (`call_foundation_model`): a function from the
conversation to either the decoded response or a raised exception's
message.  Model name, temperature, max_tokens and token are fixed per
request and folded into the function. -/
def Gateway : Type := List MMsg → Except String ModelResponse

/-- Result of one run of the endpoint: the HTTP outcome, the final trace
store, how many Gateway calls were made, and the conversation sent on each
Gateway call (in call order). -/
structure AgentRunResult where
  outcome : Except HTTPError AgentChatResponse
  storage : TraceStorage
  gatewayCalls : Nat
  sentConversations : List (List MMsg)
deriving Repr

/-- The `model_messages` list as first built: the fixed system message prepended to
the caller messages mapped to `{"role": ..., "content": ...}`. -/
def initialConversation (chat_request : AgentChatRequest) : List MMsg :=
  ⟨"system", some (.str systemPromptText), none, []⟩ ::
    chat_request.messages.map (fun m => ⟨m.role, some (.str m.content), none, []⟩)

/-- Python `chat_request.messages[-1].content if chat_request.messages else ""`. -/
def lastUserContent (chat_request : AgentChatRequest) : String :=
  match chat_request.messages.getLast? with
  | some m => m.content
  | none => ""

/-- The LLM span's `output_summary`: the tool-call decision when the model
requested tools, otherwise just the response text. -/
def llmSummary (m : RespMessage) : JValue :=
  if !m.tool_calls.isEmpty then
    .obj [("decision", .str "call_tools"),
          ("tools_to_call", .arr (m.tool_calls.map (fun tc => .str tc.name))),
          ("reasoning", .str (m.content.getD ""))]
  else
    .obj [("response", .str (m.content.getD ""))]

/-- The `assistant` message appended after a tool-calling turn; the
`content` key is included only when truthy. -/
def assistantToolMsg (m : RespMessage) : MMsg :=
  { role := "assistant"
    tool_calls := m.tool_calls
    content :=
      match m.content with
      | some s => if s = "" then none else some (.str s)
      | none => none }

/-- One `{"role": "tool", "tool_call_id": ..., "content": ...}` message. -/
def toolMMsg (t : ToolResultMsg) : MMsg :=
  ⟨"tool", some t.content, some t.tool_use_id, []⟩

/-- The conversation sent on the second (final) Gateway call: the original
messages plus the assistant tool-call turn plus one tool message per call. -/
def followupConversation (chat_request : AgentChatRequest) (m : RespMessage)
    (tool_results : List ToolResultMsg) : List MMsg :=
  initialConversation chat_request ++ [assistantToolMsg m] ++ tool_results.map toolMMsg

/-- The body of the endpoint's `try:` block after the trace and the AGENT
span have been created (everything from the token check down to the two
`return AgentChatResponse(...)` statements).  A raised `HTTPException` is
an `Except.error` outcome; the caller (`agent_chat`) plays the part of the
`except` clauses. -/
def agentChatInner (impls : ToolImpls) (gateway : Gateway) (db_token : String)
    (chat_request : AgentChatRequest) (trace_id agent_span_id : String)
    (st : TraceStorage) (now : Nat) :
    Except HTTPError AgentChatResponse × TraceStorage × Nat × List (List MMsg) :=
  if db_token = "" then
    (.error ⟨401, "No Databricks authentication token available"⟩, st, 0, [])
  else
    let model_messages : List MMsg := initialConversation chat_request
    let user_question := lastUserContent chat_request
    let p := st.add_span trace_id "LLM"
      ("llm/serving-endpoints/" ++ chat_request.model ++ "/invocations")
      (.obj [("user_question", .str user_question),
             ("model", .str chat_request.model),
             ("available_tools", .arr (toolNames.map .str))])
      (some agent_span_id) (mkSpanId 1) now
    let llm_span_id := p.1
    let st := p.2
    match gateway model_messages with
    | .error e =>
        let st := st.complete_span trace_id llm_span_id
          (.obj [("error", .str e)]) "ERROR" now
        (.error ⟨500, "Error calling Databricks Foundation Model: " ++ e⟩,
          st, 1, [model_messages])
    | .ok response =>
        let message : RespMessage :=
          match response.choices.head? with
          | some c => c.message
          | none => ⟨none, []⟩
        let st := st.complete_span trace_id llm_span_id (llmSummary message) "OK" now
        if response.choices.isEmpty then
          (.error ⟨500, "No response from model"⟩, st, 1, [model_messages])
        else if !message.tool_calls.isEmpty then
          let r := runTools impls trace_id llm_span_id now message.tool_calls st 2
          let st := r.1
          let ctr := r.2.1
          let tool_results := r.2.2.1
          let executed_tools := r.2.2.2
          let model_messages2 := followupConversation chat_request message tool_results
          let q := st.add_span trace_id "LLM"
            ("llm/serving-endpoints/" ++ chat_request.model ++ "/invocations (final)")
            (.obj [("tools_executed", .arr (executed_tools.map (fun e => .str e.tool))),
                   ("user_question", .str user_question)])
            (some agent_span_id) (mkSpanId ctr) now
          let final_llm_span_id := q.1
          let st := q.2
          match gateway model_messages2 with
          | .error e =>
              let st := st.complete_span trace_id final_llm_span_id
                (.obj [("error", .str e)]) "ERROR" now
              (.error ⟨500, "Error calling Databricks Foundation Model (final): " ++ e⟩,
                st, 2, [model_messages, model_messages2])
          | .ok final_response =>
              let final_message : RespMessage :=
                match final_response.choices.head? with
                | some c => c.message
                | none => ⟨none, []⟩
              let st := st.complete_span trace_id final_llm_span_id
                (.obj [("response", .str (final_message.content.getD ""))]) "OK" now
              if final_response.choices.isEmpty then
                (.error ⟨500, "No final response from model"⟩, st, 2,
                  [model_messages, model_messages2])
              else
                let final_response_text := orElseStr final_message.content apologyText
                let st := st.complete_span trace_id agent_span_id
                  (.obj [("response", .str final_response_text)]) "OK" now
                let st := st.complete_trace trace_id "OK" now
                (.ok ⟨final_response_text, some trace_id,
                    some (executed_tools.map ExecutedTool.toJValue)⟩,
                  st, 2, [model_messages, model_messages2])
        else
          let direct_response := orElseStr message.content apologyText
          let st := st.complete_span trace_id agent_span_id
            (.obj [("response", .str direct_response)]) "OK" now
          let st := st.complete_trace trace_id "OK" now
          (.ok ⟨direct_response, some trace_id, none⟩, st, 1, [model_messages])

/-- Python `str(e)` for a raised `HTTPException`, as recorded in the AGENT span's
error outputs by the `except` clauses. -/
def HTTPError.str (e : HTTPError) : String :=
  "(" ++ toString e.status_code ++ ", " ++ e.detail ++ ")"

/-- The `agent_chat` endpoint: create the trace (with the request's fresh
`uuid.uuid4()` as both request id and trace id), open the AGENT span, run
the body, and on a raised exception complete the AGENT span and the trace
with status ERROR before re-raising. -/
def agent_chat (impls : ToolImpls) (gateway : Gateway) (db_token : String)
    (chat_request : AgentChatRequest) (trace_uuid : String)
    (st0 : TraceStorage) (now : Nat) : AgentRunResult :=
  let user_message := (lastUserContent chat_request).trim
  let c := st0.create_trace trace_uuid user_message trace_uuid now
  let trace_id := c.1
  let st := c.2
  let a := st.add_span trace_id "AGENT" "Agent Chat"
    (.obj [("user_question", .str user_message)]) none (mkSpanId 0) now
  let agent_span_id := a.1
  let st := a.2
  let r := agentChatInner impls gateway db_token chat_request trace_id agent_span_id st now
  match r.1 with
  | .ok resp => ⟨.ok resp, r.2.1, r.2.2.1, r.2.2.2⟩
  | .error he =>
      let st := r.2.1.complete_span trace_id agent_span_id
        (.obj [("error", .str he.str)]) "ERROR" now
      let st := st.complete_trace trace_id "ERROR" now
      ⟨.error he, st, r.2.2.1, r.2.2.2⟩

/-- The process-global store `TraceStorage(max_traces=100)` at start-up. -/
def initialGlobalStorage : TraceStorage := ⟨100, []⟩


/-! ## Definitions used by the verification layer -/

/-- The RUNNING TOOL span opened for one tool call. -/
def toolSpanRunning (llm_span_id : String) (now ctr : Nat) (tc : ToolCall) : Span :=
  { span_id := mkSpanId ctr, name := tc.name, span_type := "TOOL",
    start_time_ms := now, status := "RUNNING",
    inputs := .obj [("arguments", tc.arguments)],
    parent_id := some llm_span_id }

/-- The completed TOOL span produced for one tool call: status OK with the
result as outputs when the handler returns, status ERROR with the error
message when it raises. -/
def toolSpanOf (impls : ToolImpls) (llm_span_id : String) (now ctr : Nat)
    (tc : ToolCall) : Span :=
  match executeTool impls tc.name tc.arguments with
  | .ok result =>
      TraceStorage.completeSpanRecord (toolSpanRunning llm_span_id now ctr tc) result "OK" now
  | .error e =>
      TraceStorage.completeSpanRecord (toolSpanRunning llm_span_id now ctr tc)
        (.obj [("error", .str e)]) "ERROR" now

/-- The completed TOOL spans of a tool-call list, numbering fresh span
identifiers from `ctr`. -/
def toolSpans (impls : ToolImpls) (llm_span_id : String) (now : Nat) :
    Nat → List ToolCall → List Span
  | _, [] => []
  | ctr, tc :: rest =>
      toolSpanOf impls llm_span_id now ctr tc ::
        toolSpans impls llm_span_id now (ctr + 1) rest

/-- The `tool_results` list produced by the loop. -/
def toolResultsOf (impls : ToolImpls) : List ToolCall → List ToolResultMsg
  | [] => []
  | tc :: rest =>
      (match executeTool impls tc.name tc.arguments with
       | .ok result => (⟨tc.id, result⟩ : ToolResultMsg)
       | .error e => ⟨tc.id, toolFailure e⟩) :: toolResultsOf impls rest

/-- The `executed_tools` list produced by the loop. -/
def executedToolsOf (impls : ToolImpls) : List ToolCall → List ExecutedTool
  | [] => []
  | tc :: rest =>
      (match executeTool impls tc.name tc.arguments with
       | .ok result => (⟨tc.name, tc.arguments, result⟩ : ExecutedTool)
       | .error e => ⟨tc.name, tc.arguments, toolFailure e⟩) :: executedToolsOf impls rest

/-- All span identifiers of `spans` were generated before index `n`. -/
def spanIdsBelow (spans : List Span) (n : Nat) : Prop :=
  ∀ sp ∈ spans, ∃ m, m < n ∧ sp.span_id = mkSpanId m

/-- The RUNNING AGENT span opened for the whole request. -/
def agentSpanRunning (um : String) (now : Nat) : Span :=
  { span_id := mkSpanId 0, name := "Agent Chat", span_type := "AGENT",
    start_time_ms := now, status := "RUNNING",
    inputs := .obj [("user_question", .str um)], parent_id := none }

/-- The RUNNING first LLM span (child of the AGENT span). -/
def llm1SpanRunning (req : AgentChatRequest) (now : Nat) : Span :=
  { span_id := mkSpanId 1,
    name := "llm/serving-endpoints/" ++ req.model ++ "/invocations",
    span_type := "LLM", start_time_ms := now, status := "RUNNING",
    inputs := .obj [("user_question", .str (lastUserContent req)),
                    ("model", .str req.model),
                    ("available_tools", .arr (toolNames.map .str))],
    parent_id := some (mkSpanId 0) }

/-- The RUNNING final LLM span (child of the AGENT span), opened after the
tool round with the (2 + number-of-tool-calls)-th fresh identifier. -/
def llm2SpanRunning (impls : ToolImpls) (req : AgentChatRequest)
    (tcs : List ToolCall) (now ctr : Nat) : Span :=
  { span_id := mkSpanId ctr,
    name := "llm/serving-endpoints/" ++ req.model ++ "/invocations (final)",
    span_type := "LLM", start_time_ms := now, status := "RUNNING",
    inputs := .obj [("tools_executed",
                      .arr ((executedToolsOf impls tcs).map (fun e => .str e.tool))),
                    ("user_question", .str (lastUserContent req))],
    parent_id := some (mkSpanId 0) }

/-- The trace right after the AGENT span was opened. -/
def trAfterAgent (tid um : String) (now : Nat) : Trace :=
  { trace_id := tid, request_id := tid, timestamp_ms := now,
    status := "IN_PROGRESS", spans := [agentSpanRunning um now],
    user_message := um }

/-- The trace right after the first LLM span was opened. -/
def trAfterLlm1 (tid : String) (req : AgentChatRequest) (now : Nat) : Trace :=
  { trace_id := tid, request_id := tid, timestamp_ms := now,
    status := "IN_PROGRESS",
    spans := [agentSpanRunning ((lastUserContent req).trim) now,
              llm1SpanRunning req now],
    user_message := (lastUserContent req).trim }

/-- A concrete one-trace, one-span store used by witnesses. -/
def wSpan : Span :=
  { span_id := "s0", name := "n", span_type := "LLM", start_time_ms := 0,
    status := "RUNNING", inputs := .null, parent_id := none }

/-- Its trace record. -/
def wTrace : Trace :=
  { trace_id := "t", request_id := "t", timestamp_ms := 0,
    status := "IN_PROGRESS", spans := [wSpan], user_message := "m" }

/-- Its store. -/
def wStore : TraceStorage := ⟨100, [("t", wTrace)]⟩

/-- A freshly added RUNNING span, as built by `add_span`. -/
def spanRunningOf (fresh span_type name : String) (inputs : JValue)
    (parent_id : Option String) (now : Nat) : Span :=
  { span_id := fresh, name := name, span_type := span_type,
    start_time_ms := now, status := "RUNNING", inputs := inputs,
    parent_id := parent_id }

/-- A sequence of `create_trace` calls, one per `(request_id, user_message)`
pair, in order. -/
def createMany (now : Nat) : TraceStorage → List (String × String) → TraceStorage
  | s, [] => s
  | s, p :: rest => createMany now (s.create_trace p.1 p.2 p.1 now).2 rest

/-- The entry `create_trace` inserts for a non-falsy request id. -/
def entryOf (now : Nat) (p : String × String) : String × Trace :=
  (p.1, TraceStorage.initTrace p.1 p.2 now)

/-- Tool handlers that all return a success dictionary. -/
def implsAllOk : ToolImpls :=
  ⟨fun _ => .ok (.obj [("success", .bool true)]),
   fun _ => .ok (.obj [("success", .bool true)]),
   fun _ => .ok (.obj [("success", .bool true)]),
   fun _ => .ok (.obj [("success", .bool true)]),
   fun _ => .ok (.obj [("success", .bool true)])⟩

/-- Tool handlers where `describe_table_impl` raises. -/
def implsRaise : ToolImpls :=
  ⟨fun _ => .ok (.obj [("success", .bool true)]),
   fun _ => .error "boom",
   fun _ => .ok (.obj [("success", .bool true)]),
   fun _ => .ok (.obj [("success", .bool true)]),
   fun _ => .ok (.obj [("success", .bool true)])⟩

/-- A sample tool call requested by the model. -/
def sampleToolCall : ToolCall :=
  ⟨"call1", "describe_table", .obj [("table_name", .str "account")]⟩

/-- A gateway that always answers directly with "Hello!". -/
def gwDirect : Gateway := fun _ => .ok ⟨[⟨⟨some "Hello!", []⟩⟩]⟩

/-- A gateway whose every response requests a tool call. -/
def gwAlwaysTools : Gateway :=
  fun _ => .ok ⟨[⟨⟨some "still working", [sampleToolCall]⟩⟩]⟩

/-- A gateway that requests one tool call, then answers. -/
def gwToolsThenFinal : Gateway := fun msgs =>
  if msgs.length ≤ 2 then .ok ⟨[⟨⟨some "thinking", [sampleToolCall]⟩⟩]⟩
  else .ok ⟨[⟨⟨some "Found it.", []⟩⟩]⟩

/-- A gateway that always raises. -/
def gwFail : Gateway := fun _ => .error "connection refused"

/-- A gateway that answers directly with empty content. -/
def gwEmptyContent : Gateway := fun _ => .ok ⟨[⟨⟨some "", []⟩⟩]⟩

/-- A sample chat request. -/
def reqSample : AgentChatRequest := ⟨[⟨"user", "hi", []⟩], "m", 2048⟩

/-- Exactly one AGENT span, sitting first with no parent; every non-AGENT
span's parent is the span id of a span added earlier in the same trace;
LLM spans point to the AGENT span and TOOL spans point to an LLM span. -/
def spanTreeOK (spans : List Span) : Prop :=
  (spans.countP (fun sp => sp.span_type == "AGENT") = 1) ∧
  (∃ ag, spans[0]? = some ag ∧ ag.span_type = "AGENT" ∧ ag.parent_id = none) ∧
  (∀ (i : Nat) (sp : Span), spans[i]? = some sp → sp.span_type ≠ "AGENT" →
    ∃ p, sp.parent_id = some p ∧
      ∃ (j : Nat) (sp' : Span), j < i ∧ spans[j]? = some sp' ∧ sp'.span_id = p) ∧
  (∀ sp ∈ spans, sp.span_type = "LLM" →
    ∃ ag, ag ∈ spans ∧ ag.span_type = "AGENT" ∧ sp.parent_id = some ag.span_id) ∧
  (∀ sp ∈ spans, sp.span_type = "TOOL" →
    ∃ lm, lm ∈ spans ∧ lm.span_type = "LLM" ∧ sp.parent_id = some lm.span_id)

/-! ## Basic lemmas about the store's ordered mapping -/

namespace TraceStorage

theorem odGet_eq_none {l : List (String × Trace)} {k : String}
    (h : k ∉ l.map Prod.fst) : odGet l k = none := by
  induction l with
  | nil => rfl
  | cons p rest ih =>
      obtain ⟨k', v'⟩ := p
      simp only [List.map_cons, List.mem_cons] at h
      push_neg at h
      simp only [odGet, if_neg (Ne.symm h.1), ih h.2]

theorem odGet_append {l l' : List (String × Trace)} {k : String}
    (h : k ∉ l.map Prod.fst) : odGet (l ++ l') k = odGet l' k := by
  induction l with
  | nil => rfl
  | cons p rest ih =>
      obtain ⟨k', v'⟩ := p
      simp only [List.map_cons, List.mem_cons] at h
      push_neg at h
      simp only [List.cons_append, odGet, if_neg (Ne.symm h.1)]
      exact ih h.2

theorem odGet_append_last {l : List (String × Trace)} {k : String} {v : Trace}
    (h : k ∉ l.map Prod.fst) : odGet (l ++ [(k, v)]) k = some v := by
  rw [odGet_append h]; simp [odGet]

theorem odSet_fresh {l : List (String × Trace)} {k : String} {v : Trace}
    (h : k ∉ l.map Prod.fst) : odSet l k v = l ++ [(k, v)] := by
  induction l with
  | nil => rfl
  | cons p rest ih =>
      obtain ⟨k', v'⟩ := p
      simp only [List.map_cons, List.mem_cons] at h
      push_neg at h
      simp only [odSet, if_neg (Ne.symm h.1), List.cons_append,
        List.cons.injEq, true_and, ih h.2]

theorem odSet_append_last {l : List (String × Trace)} {k : String} {v v' : Trace}
    (h : k ∉ l.map Prod.fst) : odSet (l ++ [(k, v)]) k v' = l ++ [(k, v')] := by
  induction l with
  | nil => simp [odSet]
  | cons p rest ih =>
      obtain ⟨k', v'⟩ := p
      simp only [List.map_cons, List.mem_cons] at h
      push_neg at h
      simp only [List.cons_append, odSet, if_neg (Ne.symm h.1),
        List.cons.injEq, true_and]
      exact ih h.2

theorem odSet_of_odGet_eq {l : List (String × Trace)} {k : String} {v : Trace}
    (h : odGet l k = some v) : odSet l k v = l := by
  induction l with
  | nil => simp [odGet] at h
  | cons p rest ih =>
      by_cases hk : p.1 = k
      · simp only [odGet, if_pos hk] at h
        cases h
        simp only [odSet, if_pos hk]
        rw [← hk]
      · simp only [odGet, if_neg hk] at h
        simp only [odSet, if_neg hk, List.cons.injEq, true_and, ih h]

theorem evict_eq_drop (maxT : Nat) (l : List (String × Trace)) :
    evict maxT l = l.drop (l.length - maxT) := by
  induction l with
  | nil => simp [evict]
  | cons x xs ih =>
      simp only [evict]
      by_cases h : xs.length + 1 > maxT
      · rw [if_pos h, ih]
        have : (x :: xs).length - maxT = (xs.length - maxT) + 1 := by
          simp only [List.length_cons]; omega
        rw [this, List.drop_succ_cons]
      · rw [if_neg h]
        have : (x :: xs).length - maxT = 0 := by simp only [List.length_cons]; omega
        rw [this, List.drop_zero]

theorem completeFirst_of_forall_ne {l : List Span} {sid : String}
    (h : ∀ sp ∈ l, sp.span_id ≠ sid) (o : JValue) (st : String) (now : Nat) :
    completeFirst sid o st now l = l := by
  induction l with
  | nil => rfl
  | cons sp rest ih =>
      simp only [List.mem_cons] at h
      simp only [completeFirst, if_neg (h sp (Or.inl rfl)), List.cons.injEq, true_and]
      exact ih fun x hx => h x (Or.inr hx)

theorem completeFirst_append_of_forall_ne {l l' : List Span} {sid : String}
    (h : ∀ sp ∈ l, sp.span_id ≠ sid) (o : JValue) (st : String) (now : Nat) :
    completeFirst sid o st now (l ++ l') = l ++ completeFirst sid o st now l' := by
  induction l with
  | nil => rfl
  | cons sp rest ih =>
      simp only [List.mem_cons] at h
      simp only [List.cons_append, completeFirst, if_neg (h sp (Or.inl rfl)),
        List.cons.injEq, true_and]
      exact ih fun x hx => h x (Or.inr hx)

theorem completeFirst_cons_self {sp : Span} {sid : String} (h : sp.span_id = sid)
    (o : JValue) (st : String) (now : Nat) (rest : List Span) :
    completeFirst sid o st now (sp :: rest) = completeSpanRecord sp o st now :: rest := by
  simp only [completeFirst, if_pos h]

end TraceStorage

theorem mkSpanId_inj {n m : Nat} : mkSpanId n = mkSpanId m ↔ n = m := by
  constructor
  · intro h
    have hl := congrArg String.length h
    simp only [mkSpanId, String.length, List.length_cons, List.length_replicate] at hl
    omega
  · rintro rfl; rfl

/-! ## A store holding one distinguished trace at the end of the mapping -/

namespace TraceStorage

theorem get_trace_withTrace {L : List (String × Trace)} {tid : String}
    {tr : Trace} (h : tid ∉ L.map Prod.fst) (mx : Nat) :
    (withTrace mx L tid tr).get_trace tid = some tr := by
  simp only [withTrace, get_trace]
  exact odGet_append_last h

theorem add_span_withTrace {L : List (String × Trace)} {tid : String}
    {tr : Trace} (h : tid ∉ L.map Prod.fst) (mx : Nat)
    (span_type name : String) (inputs : JValue) (parent_id : Option String)
    (fresh : String) (now : Nat) :
    (withTrace mx L tid tr).add_span tid span_type name inputs parent_id fresh now =
      (fresh, withTrace mx L tid { tr with spans := tr.spans ++
        [{ span_id := fresh, name := name, span_type := span_type,
           start_time_ms := now, status := "RUNNING", inputs := inputs,
           parent_id := parent_id }] }) := by
  simp only [withTrace, add_span, odGet_append_last h, odSet_append_last h]

theorem complete_span_withTrace {L : List (String × Trace)} {tid : String}
    {tr : Trace} (h : tid ∉ L.map Prod.fst) (mx : Nat)
    (span_id : String) (outputs : JValue) (status : String) (now : Nat) :
    (withTrace mx L tid tr).complete_span tid span_id outputs status now =
      withTrace mx L tid { tr with
        spans := completeFirst span_id outputs status now tr.spans } := by
  simp only [withTrace, complete_span, odGet_append_last h, odSet_append_last h]

theorem complete_trace_withTrace {L : List (String × Trace)} {tid : String}
    {tr : Trace} (h : tid ∉ L.map Prod.fst) (mx : Nat)
    (status : String) (now : Nat) :
    (withTrace mx L tid tr).complete_trace tid status now =
      withTrace mx L tid { tr with
        status := status
        execution_time_ms := some ((now : Int) - (tr.timestamp_ms : Int)) } := by
  simp only [withTrace, complete_trace, odGet_append_last h, odSet_append_last h]

/-- Creating a trace under a fresh identifier on a store with a nonzero
bound: the new entry is appended (and survives eviction, which only drops
oldest entries). -/
theorem create_trace_fresh {s : TraceStorage} {tid : String}
    (h : tid ∉ s.traces.map Prod.fst) (hmx : 1 ≤ s.max_traces)
    (msg : String) (now : Nat) :
    ∃ L, tid ∉ L.map Prod.fst ∧
      s.create_trace tid msg tid now = (tid, withTrace s.max_traces L tid (initTrace tid msg now)) := by
  refine ⟨s.traces.drop (s.traces.length + 1 - s.max_traces), ?_, ?_⟩
  · intro hmem
    exact h (by
      have : (s.traces.drop (s.traces.length + 1 - s.max_traces)).map Prod.fst ⊆
          s.traces.map Prod.fst := by
        intro x hx
        exact List.map_subset Prod.fst (List.drop_subset _ _) hx
      exact this hmem)
  · have hid : (if tid = "" then tid else tid) = tid := by
      by_cases h0 : tid = "" <;> simp [h0]
    simp only [create_trace, hid, odSet_fresh h, evict_eq_drop, withTrace, initTrace]
    have hlen : (s.traces ++ [((tid : String),
        ({ trace_id := tid, request_id := tid, timestamp_ms := now,
           status := "IN_PROGRESS", spans := [], user_message := msg } : Trace))]).length
        = s.traces.length + 1 := by simp
    rw [Prod.mk.injEq]
    constructor
    · rfl
    · rw [TraceStorage.mk.injEq]
      constructor
      · rfl
      · rw [hlen]
        rw [List.drop_append_eq_append_drop]
        have h2 : s.traces.length + 1 - s.max_traces - s.traces.length = 0 := by omega
        rw [h2, List.drop_zero]

end TraceStorage

/-! ## Characterizing the tool-execution loop -/

theorem spanIdsBelow_ne {spans : List Span} {n : Nat}
    (h : spanIdsBelow spans n) : ∀ sp ∈ spans, sp.span_id ≠ mkSpanId n := by
  intro sp hsp
  obtain ⟨m, hm, hid⟩ := h sp hsp
  rw [hid]
  intro hc
  rw [mkSpanId_inj] at hc
  omega

theorem toolSpanOf_span_id (impls : ToolImpls) (llm_span_id : String)
    (now ctr : Nat) (tc : ToolCall) :
    (toolSpanOf impls llm_span_id now ctr tc).span_id = mkSpanId ctr := by
  unfold toolSpanOf
  cases executeTool impls tc.name tc.arguments <;>
    simp [TraceStorage.completeSpanRecord, toolSpanRunning]

theorem toolSpans_ids {impls : ToolImpls} {llm_span_id : String} {now : Nat} :
    ∀ {tcs : List ToolCall} {ctr : Nat} (sp : Span),
      sp ∈ toolSpans impls llm_span_id now ctr tcs →
      ∃ m, ctr ≤ m ∧ m < ctr + tcs.length ∧ sp.span_id = mkSpanId m := by
  intro tcs
  induction tcs with
  | nil => intro ctr sp h; simp [toolSpans] at h
  | cons tc rest ih =>
      intro ctr sp h
      simp only [toolSpans, List.mem_cons] at h
      rcases h with h | h
      · exact ⟨ctr, le_refl _, by simp, by rw [h, toolSpanOf_span_id]⟩
      · obtain ⟨m, h1, h2, h3⟩ := ih sp h
        exact ⟨m, by omega, by simp only [List.length_cons]; omega, h3⟩

/-- The `for tool_call in ...` loop, characterized: it appends one completed
TOOL span per call to the distinguished trace and returns the tool results
and executed-tool records in call order. -/
theorem runTools_spec (impls : ToolImpls) {tid : String} (llm_span_id : String)
    (now : Nat) :
    ∀ (tcs : List ToolCall) (L : List (String × Trace)) (tr : Trace) (ctr mx : Nat),
      tid ∉ L.map Prod.fst →
      spanIdsBelow tr.spans ctr →
      runTools impls tid llm_span_id now tcs (TraceStorage.withTrace mx L tid tr) ctr =
        (TraceStorage.withTrace mx L tid
          { tr with spans := tr.spans ++ toolSpans impls llm_span_id now ctr tcs },
         ctr + tcs.length, toolResultsOf impls tcs, executedToolsOf impls tcs) := by
  intro tcs
  induction tcs with
  | nil =>
      intro L tr ctr mx hL hids
      simp [runTools, toolSpans, toolResultsOf, executedToolsOf]
  | cons tc rest ih =>
      intro L tr ctr mx hL hids
      have hadd : (TraceStorage.withTrace mx L tid tr).add_span tid "TOOL" tc.name
          (.obj [("arguments", tc.arguments)]) (some llm_span_id) (mkSpanId ctr) now =
          (mkSpanId ctr, TraceStorage.withTrace mx L tid
            { tr with spans := tr.spans ++ [toolSpanRunning llm_span_id now ctr tc] }) := by
        rw [@TraceStorage.add_span_withTrace L tid tr hL mx "TOOL" tc.name
          (.obj [("arguments", tc.arguments)]) (some llm_span_id) (mkSpanId ctr) now]
        rfl
      have hne : ∀ sp ∈ tr.spans, sp.span_id ≠ mkSpanId ctr := spanIdsBelow_ne hids
      have hcf : ∀ (o : JValue) (stt : String),
          TraceStorage.completeFirst (mkSpanId ctr) o stt now
            (tr.spans ++ [toolSpanRunning llm_span_id now ctr tc]) =
            tr.spans ++ [TraceStorage.completeSpanRecord
              (toolSpanRunning llm_span_id now ctr tc) o stt now] := by
        intro o stt
        rw [TraceStorage.completeFirst_append_of_forall_ne hne,
          @TraceStorage.completeFirst_cons_self (toolSpanRunning llm_span_id now ctr tc)
            (mkSpanId ctr) rfl o stt now []]
      have hnext : spanIdsBelow (tr.spans ++
          [toolSpanOf impls llm_span_id now ctr tc]) (ctr + 1) := by
        intro sp hsp
        rcases List.mem_append.mp hsp with h | h
        · obtain ⟨m, hm, hid⟩ := hids sp h
          exact ⟨m, by omega, hid⟩
        · rcases List.mem_singleton.mp h with rfl
          exact ⟨ctr, by omega, toolSpanOf_span_id ..⟩
      have hrun := ih L ({ tr with
        spans := tr.spans ++ [toolSpanOf impls llm_span_id now ctr tc] }) (ctr + 1) mx hL hnext
      cases hout : executeTool impls tc.name tc.arguments with
      | ok result =>
          have hts : TraceStorage.completeSpanRecord
              (toolSpanRunning llm_span_id now ctr tc) result "OK" now =
              toolSpanOf impls llm_span_id now ctr tc := by
            simp [toolSpanOf, hout]
          simp only [runTools, hadd, hout,
            TraceStorage.complete_span_withTrace hL, hcf, hts, hrun]
          have harith : ctr + 1 + rest.length = ctr + (rest.length + 1) := by omega
          simp [toolSpans, toolResultsOf, executedToolsOf, hout, harith,
            List.append_assoc]
      | error e =>
          have hts : TraceStorage.completeSpanRecord
              (toolSpanRunning llm_span_id now ctr tc) (.obj [("error", .str e)]) "ERROR" now =
              toolSpanOf impls llm_span_id now ctr tc := by
            simp [toolSpanOf, hout]
          simp only [runTools, hadd, hout,
            TraceStorage.complete_span_withTrace hL, hcf, hts, hrun]
          have harith : ctr + 1 + rest.length = ctr + (rest.length + 1) := by omega
          simp [toolSpans, toolResultsOf, executedToolsOf, hout, harith,
            List.append_assoc]

/-! ## Characterizing the endpoint runs path by path -/

theorem completeFirst_cons_ne {sp : Span} {sid : String} (h : sp.span_id ≠ sid)
    (o : JValue) (st : String) (now : Nat) (rest : List Span) :
    TraceStorage.completeFirst sid o st now (sp :: rest) =
      sp :: TraceStorage.completeFirst sid o st now rest := by
  simp only [TraceStorage.completeFirst, if_neg h]

theorem mkSpanId_ne {n m : Nat} (h : n ≠ m) : mkSpanId n ≠ mkSpanId m := by
  intro hc
  exact h (mkSpanId_inj.mp hc)

theorem add_agent_span_eq {L : List (String × Trace)} {tid : String}
    (hL : tid ∉ L.map Prod.fst) (mx now : Nat) (um : String) :
    (TraceStorage.withTrace mx L tid (TraceStorage.initTrace tid um now)).add_span
        tid "AGENT" "Agent Chat" (.obj [("user_question", .str um)]) none
        (mkSpanId 0) now =
      (mkSpanId 0, TraceStorage.withTrace mx L tid (trAfterAgent tid um now)) := by
  rw [@TraceStorage.add_span_withTrace L tid (TraceStorage.initTrace tid um now)
    hL mx "AGENT" "Agent Chat" (.obj [("user_question", .str um)]) none
    (mkSpanId 0) now]
  rfl

theorem add_llm1_span_eq {L : List (String × Trace)} {tid : String}
    (hL : tid ∉ L.map Prod.fst) (mx now : Nat) (req : AgentChatRequest) :
    (TraceStorage.withTrace mx L tid
        (trAfterAgent tid ((lastUserContent req).trim) now)).add_span
        tid "LLM" ("llm/serving-endpoints/" ++ req.model ++ "/invocations")
        (.obj [("user_question", .str (lastUserContent req)),
               ("model", .str req.model),
               ("available_tools", .arr (toolNames.map .str))])
        (some (mkSpanId 0)) (mkSpanId 1) now =
      (mkSpanId 1, TraceStorage.withTrace mx L tid (trAfterLlm1 tid req now)) := by
  rw [@TraceStorage.add_span_withTrace L tid
    (trAfterAgent tid ((lastUserContent req).trim) now) hL mx "LLM"
    ("llm/serving-endpoints/" ++ req.model ++ "/invocations")
    (.obj [("user_question", .str (lastUserContent req)),
           ("model", .str req.model),
           ("available_tools", .arr (toolNames.map .str))])
    (some (mkSpanId 0)) (mkSpanId 1) now]
  rfl

theorem cf_llm1 (um : String) (req : AgentChatRequest) (now : Nat)
    (o : JValue) (st : String) :
    TraceStorage.completeFirst (mkSpanId 1) o st now
        [agentSpanRunning um now, llm1SpanRunning req now] =
      [agentSpanRunning um now,
       TraceStorage.completeSpanRecord (llm1SpanRunning req now) o st now] := by
  rw [completeFirst_cons_ne (mkSpanId_ne (by omega)) o st now,
    @TraceStorage.completeFirst_cons_self (llm1SpanRunning req now)
      (mkSpanId 1) rfl o st now []]

/-- Direct-answer path: the first Gateway call succeeds with a nonempty
choice list and no tool calls.  One Gateway call is made; the AGENT and LLM
spans complete OK; the trace completes OK; the response text is the
message content (or the apology when falsy). -/
theorem agent_chat_direct_ok (impls : ToolImpls) (gw : Gateway) (token : String)
    (req : AgentChatRequest) (tid : String) (st0 : TraceStorage) (now : Nat)
    (hfresh : tid ∉ st0.traces.map Prod.fst) (hmx : 1 ≤ st0.max_traces)
    (htok : ¬ token = "")
    (resp : ModelResponse) (c : Choice) (cs : List Choice)
    (hgw : gw (initialConversation req) = .ok resp)
    (hch : resp.choices = c :: cs)
    (htc : c.message.tool_calls = []) :
    ∃ L, tid ∉ L.map Prod.fst ∧
      agent_chat impls gw token req tid st0 now =
        ⟨.ok { response := orElseStr c.message.content apologyText,
               trace_id := some tid, tool_calls := none },
         TraceStorage.withTrace st0.max_traces L tid
           { trace_id := tid, request_id := tid, timestamp_ms := now,
             status := "OK",
             spans := [TraceStorage.completeSpanRecord
                         (agentSpanRunning ((lastUserContent req).trim) now)
                         (.obj [("response",
                           .str (orElseStr c.message.content apologyText))]) "OK" now,
                       TraceStorage.completeSpanRecord (llm1SpanRunning req now)
                         (llmSummary c.message) "OK" now],
             user_message := (lastUserContent req).trim,
             execution_time_ms := some ((now : Int) - (now : Int)) },
         1, [initialConversation req]⟩ := by
  obtain ⟨L, hL, hcreate⟩ :=
    TraceStorage.create_trace_fresh hfresh hmx ((lastUserContent req).trim) now
  refine ⟨L, hL, ?_⟩
  have hadd0 := add_agent_span_eq hL st0.max_traces now ((lastUserContent req).trim)
  have hadd1 := add_llm1_span_eq hL st0.max_traces now req
  have hcfA := @TraceStorage.completeFirst_cons_self
    (agentSpanRunning ((lastUserContent req).trim) now) (mkSpanId 0) rfl
    (.obj [("response", .str (orElseStr c.message.content apologyText))]) "OK" now
    [TraceStorage.completeSpanRecord (llm1SpanRunning req now)
      (llmSummary c.message) "OK" now]
  simp only [agent_chat, hcreate, hadd0, agentChatInner, if_neg htok, hadd1,
    hgw, hch, List.head?_cons, List.isEmpty_cons, htc, List.isEmpty_nil,
    Bool.not_true, Bool.false_eq_true, if_false, reduceIte,
    TraceStorage.complete_span_withTrace hL, trAfterLlm1,
    cf_llm1 ((lastUserContent req).trim) req now (llmSummary c.message) "OK",
    hcfA, TraceStorage.complete_trace_withTrace hL]

/-- Missing-credential path: the endpoint raises 401 before any Gateway
call; the AGENT span and the trace complete ERROR. -/
theorem agent_chat_no_token (impls : ToolImpls) (gw : Gateway)
    (req : AgentChatRequest) (tid : String) (st0 : TraceStorage) (now : Nat)
    (hfresh : tid ∉ st0.traces.map Prod.fst) (hmx : 1 ≤ st0.max_traces) :
    ∃ L, tid ∉ L.map Prod.fst ∧
      agent_chat impls gw "" req tid st0 now =
        ⟨.error ⟨401, "No Databricks authentication token available"⟩,
         TraceStorage.withTrace st0.max_traces L tid
           { trace_id := tid, request_id := tid, timestamp_ms := now,
             status := "ERROR",
             spans := [TraceStorage.completeSpanRecord
                         (agentSpanRunning ((lastUserContent req).trim) now)
                         (.obj [("error", .str (HTTPError.str
                           ⟨401, "No Databricks authentication token available"⟩))])
                         "ERROR" now],
             user_message := (lastUserContent req).trim,
             execution_time_ms := some ((now : Int) - (now : Int)) },
         0, []⟩ := by
  obtain ⟨L, hL, hcreate⟩ :=
    TraceStorage.create_trace_fresh hfresh hmx ((lastUserContent req).trim) now
  refine ⟨L, hL, ?_⟩
  have hadd0 := add_agent_span_eq hL st0.max_traces now ((lastUserContent req).trim)
  have hcfA := @TraceStorage.completeFirst_cons_self
    (agentSpanRunning ((lastUserContent req).trim) now) (mkSpanId 0) rfl
    (.obj [("error", .str (HTTPError.str
      ⟨401, "No Databricks authentication token available"⟩))]) "ERROR" now []
  simp only [agent_chat, hcreate, hadd0, agentChatInner, reduceIte, trAfterAgent,
    TraceStorage.complete_span_withTrace hL, hcfA,
    TraceStorage.complete_trace_withTrace hL]

/-- Gateway-failure path (first call): the LLM span completes ERROR, the
request aborts with a 500, and the AGENT span and trace complete ERROR. -/
theorem agent_chat_gw1_error (impls : ToolImpls) (gw : Gateway) (token : String)
    (req : AgentChatRequest) (tid : String) (st0 : TraceStorage) (now : Nat)
    (hfresh : tid ∉ st0.traces.map Prod.fst) (hmx : 1 ≤ st0.max_traces)
    (htok : ¬ token = "") (e : String)
    (hgw : gw (initialConversation req) = .error e) :
    ∃ L, tid ∉ L.map Prod.fst ∧
      agent_chat impls gw token req tid st0 now =
        ⟨.error ⟨500, "Error calling Databricks Foundation Model: " ++ e⟩,
         TraceStorage.withTrace st0.max_traces L tid
           { trace_id := tid, request_id := tid, timestamp_ms := now,
             status := "ERROR",
             spans := [TraceStorage.completeSpanRecord
                         (agentSpanRunning ((lastUserContent req).trim) now)
                         (.obj [("error", .str (HTTPError.str
                           ⟨500, "Error calling Databricks Foundation Model: " ++ e⟩))])
                         "ERROR" now,
                       TraceStorage.completeSpanRecord (llm1SpanRunning req now)
                         (.obj [("error", .str e)]) "ERROR" now],
             user_message := (lastUserContent req).trim,
             execution_time_ms := some ((now : Int) - (now : Int)) },
         1, [initialConversation req]⟩ := by
  obtain ⟨L, hL, hcreate⟩ :=
    TraceStorage.create_trace_fresh hfresh hmx ((lastUserContent req).trim) now
  refine ⟨L, hL, ?_⟩
  have hadd0 := add_agent_span_eq hL st0.max_traces now ((lastUserContent req).trim)
  have hadd1 := add_llm1_span_eq hL st0.max_traces now req
  have hcfA := @TraceStorage.completeFirst_cons_self
    (agentSpanRunning ((lastUserContent req).trim) now) (mkSpanId 0) rfl
    (.obj [("error", .str (HTTPError.str
      ⟨500, "Error calling Databricks Foundation Model: " ++ e⟩))]) "ERROR" now
    [TraceStorage.completeSpanRecord (llm1SpanRunning req now)
      (.obj [("error", .str e)]) "ERROR" now]
  simp only [agent_chat, hcreate, hadd0, agentChatInner, if_neg htok, hadd1,
    hgw, trAfterLlm1,
    TraceStorage.complete_span_withTrace hL,
    cf_llm1 ((lastUserContent req).trim) req now (.obj [("error", .str e)]) "ERROR",
    hcfA, TraceStorage.complete_trace_withTrace hL]

/-- Empty-choices path (first call): the LLM span completes OK (with an
empty response summary), then the endpoint raises 500 "No response from
model"; the AGENT span and trace complete ERROR. -/
theorem agent_chat_no_choices (impls : ToolImpls) (gw : Gateway) (token : String)
    (req : AgentChatRequest) (tid : String) (st0 : TraceStorage) (now : Nat)
    (hfresh : tid ∉ st0.traces.map Prod.fst) (hmx : 1 ≤ st0.max_traces)
    (htok : ¬ token = "") (resp : ModelResponse)
    (hgw : gw (initialConversation req) = .ok resp)
    (hch : resp.choices = []) :
    ∃ L, tid ∉ L.map Prod.fst ∧
      agent_chat impls gw token req tid st0 now =
        ⟨.error ⟨500, "No response from model"⟩,
         TraceStorage.withTrace st0.max_traces L tid
           { trace_id := tid, request_id := tid, timestamp_ms := now,
             status := "ERROR",
             spans := [TraceStorage.completeSpanRecord
                         (agentSpanRunning ((lastUserContent req).trim) now)
                         (.obj [("error", .str (HTTPError.str
                           ⟨500, "No response from model"⟩))]) "ERROR" now,
                       TraceStorage.completeSpanRecord (llm1SpanRunning req now)
                         (.obj [("response", .str "")]) "OK" now],
             user_message := (lastUserContent req).trim,
             execution_time_ms := some ((now : Int) - (now : Int)) },
         1, [initialConversation req]⟩ := by
  obtain ⟨L, hL, hcreate⟩ :=
    TraceStorage.create_trace_fresh hfresh hmx ((lastUserContent req).trim) now
  refine ⟨L, hL, ?_⟩
  have hadd0 := add_agent_span_eq hL st0.max_traces now ((lastUserContent req).trim)
  have hadd1 := add_llm1_span_eq hL st0.max_traces now req
  have hsum : llmSummary ⟨none, []⟩ = .obj [("response", .str "")] := by
    simp [llmSummary]
  have hcfA := @TraceStorage.completeFirst_cons_self
    (agentSpanRunning ((lastUserContent req).trim) now) (mkSpanId 0) rfl
    (.obj [("error", .str (HTTPError.str ⟨500, "No response from model"⟩))])
    "ERROR" now
    [TraceStorage.completeSpanRecord (llm1SpanRunning req now)
      (.obj [("response", .str "")]) "OK" now]
  simp only [agent_chat, hcreate, hadd0, agentChatInner, if_neg htok, hadd1,
    hgw, hch, List.head?_nil, List.isEmpty_nil, reduceIte, hsum, trAfterLlm1,
    TraceStorage.complete_span_withTrace hL,
    cf_llm1 ((lastUserContent req).trim) req now (.obj [("response", .str "")]) "OK",
    hcfA, TraceStorage.complete_trace_withTrace hL]

/-- Tool path, final call succeeds with a nonempty choice list: two Gateway
calls, one TOOL span per tool call, and an OK trace whose response is the
final message's content (or the apology when falsy). -/
theorem agent_chat_tools_ok (impls : ToolImpls) (gw : Gateway) (token : String)
    (req : AgentChatRequest) (tid : String) (st0 : TraceStorage) (now : Nat)
    (hfresh : tid ∉ st0.traces.map Prod.fst) (hmx : 1 ≤ st0.max_traces)
    (htok : ¬ token = "")
    (resp : ModelResponse) (c : Choice) (cs : List Choice)
    (hgw : gw (initialConversation req) = .ok resp)
    (hch : resp.choices = c :: cs)
    (htc : c.message.tool_calls.isEmpty = false)
    (fresp : ModelResponse) (fc : Choice) (fcs : List Choice)
    (hgw2 : gw (followupConversation req c.message
      (toolResultsOf impls c.message.tool_calls)) = .ok fresp)
    (hfch : fresp.choices = fc :: fcs) :
    ∃ L, tid ∉ L.map Prod.fst ∧
      agent_chat impls gw token req tid st0 now =
        ⟨.ok { response := orElseStr fc.message.content apologyText,
               trace_id := some tid,
               tool_calls := some ((executedToolsOf impls c.message.tool_calls).map
                 ExecutedTool.toJValue) },
         TraceStorage.withTrace st0.max_traces L tid
           { trace_id := tid, request_id := tid, timestamp_ms := now,
             status := "OK",
             spans := TraceStorage.completeSpanRecord
                        (agentSpanRunning ((lastUserContent req).trim) now)
                        (.obj [("response",
                          .str (orElseStr fc.message.content apologyText))]) "OK" now ::
                      TraceStorage.completeSpanRecord (llm1SpanRunning req now)
                        (llmSummary c.message) "OK" now ::
                      (toolSpans impls (mkSpanId 1) now 2 c.message.tool_calls ++
                       [TraceStorage.completeSpanRecord
                          (llm2SpanRunning impls req c.message.tool_calls now
                            (2 + c.message.tool_calls.length))
                          (.obj [("response", .str (fc.message.content.getD ""))])
                          "OK" now]),
             user_message := (lastUserContent req).trim,
             execution_time_ms := some ((now : Int) - (now : Int)) },
         2, [initialConversation req,
             followupConversation req c.message
               (toolResultsOf impls c.message.tool_calls)]⟩ := by
  obtain ⟨L, hL, hcreate⟩ :=
    TraceStorage.create_trace_fresh hfresh hmx ((lastUserContent req).trim) now
  refine ⟨L, hL, ?_⟩
  have hadd0 := add_agent_span_eq hL st0.max_traces now ((lastUserContent req).trim)
  have hadd1 := add_llm1_span_eq hL st0.max_traces now req
  have hids2 : spanIdsBelow
      [agentSpanRunning ((lastUserContent req).trim) now,
       TraceStorage.completeSpanRecord (llm1SpanRunning req now)
         (llmSummary c.message) "OK" now] 2 := by
    intro sp hsp
    simp only [List.mem_cons, List.mem_singleton, List.not_mem_nil, or_false] at hsp
    rcases hsp with rfl | rfl
    · exact ⟨0, by omega, rfl⟩
    · exact ⟨1, by omega, rfl⟩
  have hrun := @runTools_spec impls tid (mkSpanId 1) now c.message.tool_calls L
    { trace_id := tid, request_id := tid, timestamp_ms := now,
      status := "IN_PROGRESS",
      spans := [agentSpanRunning ((lastUserContent req).trim) now,
                TraceStorage.completeSpanRecord (llm1SpanRunning req now)
                  (llmSummary c.message) "OK" now],
      user_message := (lastUserContent req).trim,
      execution_time_ms := none }
    2 st0.max_traces hL hids2
  have hadd2 : (TraceStorage.withTrace st0.max_traces L tid
      { trace_id := tid, request_id := tid, timestamp_ms := now,
        status := "IN_PROGRESS",
        spans := agentSpanRunning ((lastUserContent req).trim) now ::
                 TraceStorage.completeSpanRecord (llm1SpanRunning req now)
                   (llmSummary c.message) "OK" now ::
                 toolSpans impls (mkSpanId 1) now 2 c.message.tool_calls,
        user_message := (lastUserContent req).trim,
        execution_time_ms := none }).add_span tid "LLM"
      ("llm/serving-endpoints/" ++ req.model ++ "/invocations (final)")
      (.obj [("tools_executed",
               .arr ((executedToolsOf impls c.message.tool_calls).map
                 (fun e => .str e.tool))),
             ("user_question", .str (lastUserContent req))])
      (some (mkSpanId 0)) (mkSpanId (2 + c.message.tool_calls.length)) now =
      (mkSpanId (2 + c.message.tool_calls.length),
       TraceStorage.withTrace st0.max_traces L tid
        { trace_id := tid, request_id := tid, timestamp_ms := now,
          status := "IN_PROGRESS",
          spans := agentSpanRunning ((lastUserContent req).trim) now ::
                   TraceStorage.completeSpanRecord (llm1SpanRunning req now)
                     (llmSummary c.message) "OK" now ::
                   (toolSpans impls (mkSpanId 1) now 2 c.message.tool_calls ++
                    [llm2SpanRunning impls req c.message.tool_calls now
                      (2 + c.message.tool_calls.length)]),
          user_message := (lastUserContent req).trim,
          execution_time_ms := none }) := by
    rw [TraceStorage.add_span_withTrace hL]
    rfl
  have htne : ∀ sp ∈ toolSpans impls (mkSpanId 1) now 2 c.message.tool_calls,
      sp.span_id ≠ mkSpanId (2 + c.message.tool_calls.length) := by
    intro sp hsp
    obtain ⟨m, h1, h2, h3⟩ := toolSpans_ids sp hsp
    rw [h3]
    exact mkSpanId_ne (by omega)
  have hcfF : TraceStorage.completeFirst
      (mkSpanId (2 + c.message.tool_calls.length))
      (.obj [("response", .str (fc.message.content.getD ""))]) "OK" now
      (agentSpanRunning ((lastUserContent req).trim) now ::
       TraceStorage.completeSpanRecord (llm1SpanRunning req now)
         (llmSummary c.message) "OK" now ::
       (toolSpans impls (mkSpanId 1) now 2 c.message.tool_calls ++
        [llm2SpanRunning impls req c.message.tool_calls now
          (2 + c.message.tool_calls.length)])) =
      agentSpanRunning ((lastUserContent req).trim) now ::
      TraceStorage.completeSpanRecord (llm1SpanRunning req now)
        (llmSummary c.message) "OK" now ::
      (toolSpans impls (mkSpanId 1) now 2 c.message.tool_calls ++
       [TraceStorage.completeSpanRecord
          (llm2SpanRunning impls req c.message.tool_calls now
            (2 + c.message.tool_calls.length))
          (.obj [("response", .str (fc.message.content.getD ""))]) "OK" now]) := by
    rw [completeFirst_cons_ne (mkSpanId_ne (by omega)),
      completeFirst_cons_ne (mkSpanId_ne (by omega)),
      TraceStorage.completeFirst_append_of_forall_ne htne,
      @TraceStorage.completeFirst_cons_self
        (llm2SpanRunning impls req c.message.tool_calls now
          (2 + c.message.tool_calls.length))
        (mkSpanId (2 + c.message.tool_calls.length)) rfl _ _ now []]
  have hcfA := @TraceStorage.completeFirst_cons_self
    (agentSpanRunning ((lastUserContent req).trim) now) (mkSpanId 0) rfl
    (.obj [("response", .str (orElseStr fc.message.content apologyText))]) "OK" now
    (TraceStorage.completeSpanRecord (llm1SpanRunning req now)
       (llmSummary c.message) "OK" now ::
     (toolSpans impls (mkSpanId 1) now 2 c.message.tool_calls ++
      [TraceStorage.completeSpanRecord
         (llm2SpanRunning impls req c.message.tool_calls now
           (2 + c.message.tool_calls.length))
         (.obj [("response", .str (fc.message.content.getD ""))]) "OK" now]))
  simp only [agent_chat, hcreate, hadd0, agentChatInner, if_neg htok, hadd1,
    hgw, hch, List.head?_cons, List.isEmpty_cons, htc, Bool.not_false, reduceIte,
    TraceStorage.complete_span_withTrace hL, trAfterLlm1,
    cf_llm1 ((lastUserContent req).trim) req now (llmSummary c.message) "OK",
    hrun, List.cons_append, List.nil_append, hadd2, hgw2, hfch,
    hcfF, hcfA, TraceStorage.complete_trace_withTrace hL,
    Bool.false_eq_true, if_false]

/-- Tool path, final Gateway call raises: the final LLM span completes
ERROR, the request aborts 500, AGENT span and trace complete ERROR; the
TOOL spans keep their own statuses. -/
theorem agent_chat_tools_gw2_error (impls : ToolImpls) (gw : Gateway)
    (token : String) (req : AgentChatRequest) (tid : String)
    (st0 : TraceStorage) (now : Nat)
    (hfresh : tid ∉ st0.traces.map Prod.fst) (hmx : 1 ≤ st0.max_traces)
    (htok : ¬ token = "")
    (resp : ModelResponse) (c : Choice) (cs : List Choice)
    (hgw : gw (initialConversation req) = .ok resp)
    (hch : resp.choices = c :: cs)
    (htc : c.message.tool_calls.isEmpty = false) (e : String)
    (hgw2 : gw (followupConversation req c.message
      (toolResultsOf impls c.message.tool_calls)) = .error e) :
    ∃ L, tid ∉ L.map Prod.fst ∧
      agent_chat impls gw token req tid st0 now =
        ⟨.error ⟨500, "Error calling Databricks Foundation Model (final): " ++ e⟩,
         TraceStorage.withTrace st0.max_traces L tid
           { trace_id := tid, request_id := tid, timestamp_ms := now,
             status := "ERROR",
             spans := TraceStorage.completeSpanRecord
                        (agentSpanRunning ((lastUserContent req).trim) now)
                        (.obj [("error", .str (HTTPError.str
                          ⟨500, "Error calling Databricks Foundation Model (final): " ++ e⟩))])
                        "ERROR" now ::
                      TraceStorage.completeSpanRecord (llm1SpanRunning req now)
                        (llmSummary c.message) "OK" now ::
                      (toolSpans impls (mkSpanId 1) now 2 c.message.tool_calls ++
                       [TraceStorage.completeSpanRecord
                          (llm2SpanRunning impls req c.message.tool_calls now
                            (2 + c.message.tool_calls.length))
                          (.obj [("error", .str e)]) "ERROR" now]),
             user_message := (lastUserContent req).trim,
             execution_time_ms := some ((now : Int) - (now : Int)) },
         2, [initialConversation req,
             followupConversation req c.message
               (toolResultsOf impls c.message.tool_calls)]⟩ := by
  obtain ⟨L, hL, hcreate⟩ :=
    TraceStorage.create_trace_fresh hfresh hmx ((lastUserContent req).trim) now
  refine ⟨L, hL, ?_⟩
  have hadd0 := add_agent_span_eq hL st0.max_traces now ((lastUserContent req).trim)
  have hadd1 := add_llm1_span_eq hL st0.max_traces now req
  have hids2 : spanIdsBelow
      [agentSpanRunning ((lastUserContent req).trim) now,
       TraceStorage.completeSpanRecord (llm1SpanRunning req now)
         (llmSummary c.message) "OK" now] 2 := by
    intro sp hsp
    simp only [List.mem_cons, List.mem_singleton, List.not_mem_nil, or_false] at hsp
    rcases hsp with rfl | rfl
    · exact ⟨0, by omega, rfl⟩
    · exact ⟨1, by omega, rfl⟩
  have hrun := @runTools_spec impls tid (mkSpanId 1) now c.message.tool_calls L
    { trace_id := tid, request_id := tid, timestamp_ms := now,
      status := "IN_PROGRESS",
      spans := [agentSpanRunning ((lastUserContent req).trim) now,
                TraceStorage.completeSpanRecord (llm1SpanRunning req now)
                  (llmSummary c.message) "OK" now],
      user_message := (lastUserContent req).trim,
      execution_time_ms := none }
    2 st0.max_traces hL hids2
  have hadd2 : (TraceStorage.withTrace st0.max_traces L tid
      { trace_id := tid, request_id := tid, timestamp_ms := now,
        status := "IN_PROGRESS",
        spans := agentSpanRunning ((lastUserContent req).trim) now ::
                 TraceStorage.completeSpanRecord (llm1SpanRunning req now)
                   (llmSummary c.message) "OK" now ::
                 toolSpans impls (mkSpanId 1) now 2 c.message.tool_calls,
        user_message := (lastUserContent req).trim,
        execution_time_ms := none }).add_span tid "LLM"
      ("llm/serving-endpoints/" ++ req.model ++ "/invocations (final)")
      (.obj [("tools_executed",
               .arr ((executedToolsOf impls c.message.tool_calls).map
                 (fun e => .str e.tool))),
             ("user_question", .str (lastUserContent req))])
      (some (mkSpanId 0)) (mkSpanId (2 + c.message.tool_calls.length)) now =
      (mkSpanId (2 + c.message.tool_calls.length),
       TraceStorage.withTrace st0.max_traces L tid
        { trace_id := tid, request_id := tid, timestamp_ms := now,
          status := "IN_PROGRESS",
          spans := agentSpanRunning ((lastUserContent req).trim) now ::
                   TraceStorage.completeSpanRecord (llm1SpanRunning req now)
                     (llmSummary c.message) "OK" now ::
                   (toolSpans impls (mkSpanId 1) now 2 c.message.tool_calls ++
                    [llm2SpanRunning impls req c.message.tool_calls now
                      (2 + c.message.tool_calls.length)]),
          user_message := (lastUserContent req).trim,
          execution_time_ms := none }) := by
    rw [TraceStorage.add_span_withTrace hL]
    rfl
  have htne : ∀ sp ∈ toolSpans impls (mkSpanId 1) now 2 c.message.tool_calls,
      sp.span_id ≠ mkSpanId (2 + c.message.tool_calls.length) := by
    intro sp hsp
    obtain ⟨m, h1, h2, h3⟩ := toolSpans_ids sp hsp
    rw [h3]
    exact mkSpanId_ne (by omega)
  have hcfF : TraceStorage.completeFirst
      (mkSpanId (2 + c.message.tool_calls.length))
      (.obj [("error", .str e)]) "ERROR" now
      (agentSpanRunning ((lastUserContent req).trim) now ::
       TraceStorage.completeSpanRecord (llm1SpanRunning req now)
         (llmSummary c.message) "OK" now ::
       (toolSpans impls (mkSpanId 1) now 2 c.message.tool_calls ++
        [llm2SpanRunning impls req c.message.tool_calls now
          (2 + c.message.tool_calls.length)])) =
      agentSpanRunning ((lastUserContent req).trim) now ::
      TraceStorage.completeSpanRecord (llm1SpanRunning req now)
        (llmSummary c.message) "OK" now ::
      (toolSpans impls (mkSpanId 1) now 2 c.message.tool_calls ++
       [TraceStorage.completeSpanRecord
          (llm2SpanRunning impls req c.message.tool_calls now
            (2 + c.message.tool_calls.length))
          (.obj [("error", .str e)]) "ERROR" now]) := by
    rw [completeFirst_cons_ne (mkSpanId_ne (by omega)),
      completeFirst_cons_ne (mkSpanId_ne (by omega)),
      TraceStorage.completeFirst_append_of_forall_ne htne,
      @TraceStorage.completeFirst_cons_self
        (llm2SpanRunning impls req c.message.tool_calls now
          (2 + c.message.tool_calls.length))
        (mkSpanId (2 + c.message.tool_calls.length)) rfl _ _ now []]
  have hcfA := @TraceStorage.completeFirst_cons_self
    (agentSpanRunning ((lastUserContent req).trim) now) (mkSpanId 0) rfl
    (.obj [("error", .str (HTTPError.str
      ⟨500, "Error calling Databricks Foundation Model (final): " ++ e⟩))]) "ERROR" now
    (TraceStorage.completeSpanRecord (llm1SpanRunning req now)
       (llmSummary c.message) "OK" now ::
     (toolSpans impls (mkSpanId 1) now 2 c.message.tool_calls ++
      [TraceStorage.completeSpanRecord
         (llm2SpanRunning impls req c.message.tool_calls now
           (2 + c.message.tool_calls.length))
         (.obj [("error", .str e)]) "ERROR" now]))
  simp only [agent_chat, hcreate, hadd0, agentChatInner, if_neg htok, hadd1,
    hgw, hch, List.head?_cons, List.isEmpty_cons, htc, Bool.not_false, reduceIte,
    TraceStorage.complete_span_withTrace hL, trAfterLlm1,
    cf_llm1 ((lastUserContent req).trim) req now (llmSummary c.message) "OK",
    hrun, List.cons_append, List.nil_append, hadd2, hgw2,
    hcfF, hcfA, TraceStorage.complete_trace_withTrace hL,
    Bool.false_eq_true, if_false]

/-- Tool path, final call returns an empty choice list: the final LLM span
completes OK (empty response summary), then 500 "No final response from
model"; AGENT span and trace complete ERROR. -/
theorem agent_chat_tools_no_choices (impls : ToolImpls) (gw : Gateway)
    (token : String) (req : AgentChatRequest) (tid : String)
    (st0 : TraceStorage) (now : Nat)
    (hfresh : tid ∉ st0.traces.map Prod.fst) (hmx : 1 ≤ st0.max_traces)
    (htok : ¬ token = "")
    (resp : ModelResponse) (c : Choice) (cs : List Choice)
    (hgw : gw (initialConversation req) = .ok resp)
    (hch : resp.choices = c :: cs)
    (htc : c.message.tool_calls.isEmpty = false) (fresp : ModelResponse)
    (hgw2 : gw (followupConversation req c.message
      (toolResultsOf impls c.message.tool_calls)) = .ok fresp)
    (hfch : fresp.choices = []) :
    ∃ L, tid ∉ L.map Prod.fst ∧
      agent_chat impls gw token req tid st0 now =
        ⟨.error ⟨500, "No final response from model"⟩,
         TraceStorage.withTrace st0.max_traces L tid
           { trace_id := tid, request_id := tid, timestamp_ms := now,
             status := "ERROR",
             spans := TraceStorage.completeSpanRecord
                        (agentSpanRunning ((lastUserContent req).trim) now)
                        (.obj [("error", .str (HTTPError.str
                          ⟨500, "No final response from model"⟩))]) "ERROR" now ::
                      TraceStorage.completeSpanRecord (llm1SpanRunning req now)
                        (llmSummary c.message) "OK" now ::
                      (toolSpans impls (mkSpanId 1) now 2 c.message.tool_calls ++
                       [TraceStorage.completeSpanRecord
                          (llm2SpanRunning impls req c.message.tool_calls now
                            (2 + c.message.tool_calls.length))
                          (.obj [("response", .str "")]) "OK" now]),
             user_message := (lastUserContent req).trim,
             execution_time_ms := some ((now : Int) - (now : Int)) },
         2, [initialConversation req,
             followupConversation req c.message
               (toolResultsOf impls c.message.tool_calls)]⟩ := by
  obtain ⟨L, hL, hcreate⟩ :=
    TraceStorage.create_trace_fresh hfresh hmx ((lastUserContent req).trim) now
  refine ⟨L, hL, ?_⟩
  have hadd0 := add_agent_span_eq hL st0.max_traces now ((lastUserContent req).trim)
  have hadd1 := add_llm1_span_eq hL st0.max_traces now req
  have hids2 : spanIdsBelow
      [agentSpanRunning ((lastUserContent req).trim) now,
       TraceStorage.completeSpanRecord (llm1SpanRunning req now)
         (llmSummary c.message) "OK" now] 2 := by
    intro sp hsp
    simp only [List.mem_cons, List.mem_singleton, List.not_mem_nil, or_false] at hsp
    rcases hsp with rfl | rfl
    · exact ⟨0, by omega, rfl⟩
    · exact ⟨1, by omega, rfl⟩
  have hrun := @runTools_spec impls tid (mkSpanId 1) now c.message.tool_calls L
    { trace_id := tid, request_id := tid, timestamp_ms := now,
      status := "IN_PROGRESS",
      spans := [agentSpanRunning ((lastUserContent req).trim) now,
                TraceStorage.completeSpanRecord (llm1SpanRunning req now)
                  (llmSummary c.message) "OK" now],
      user_message := (lastUserContent req).trim,
      execution_time_ms := none }
    2 st0.max_traces hL hids2
  have hadd2 : (TraceStorage.withTrace st0.max_traces L tid
      { trace_id := tid, request_id := tid, timestamp_ms := now,
        status := "IN_PROGRESS",
        spans := agentSpanRunning ((lastUserContent req).trim) now ::
                 TraceStorage.completeSpanRecord (llm1SpanRunning req now)
                   (llmSummary c.message) "OK" now ::
                 toolSpans impls (mkSpanId 1) now 2 c.message.tool_calls,
        user_message := (lastUserContent req).trim,
        execution_time_ms := none }).add_span tid "LLM"
      ("llm/serving-endpoints/" ++ req.model ++ "/invocations (final)")
      (.obj [("tools_executed",
               .arr ((executedToolsOf impls c.message.tool_calls).map
                 (fun e => .str e.tool))),
             ("user_question", .str (lastUserContent req))])
      (some (mkSpanId 0)) (mkSpanId (2 + c.message.tool_calls.length)) now =
      (mkSpanId (2 + c.message.tool_calls.length),
       TraceStorage.withTrace st0.max_traces L tid
        { trace_id := tid, request_id := tid, timestamp_ms := now,
          status := "IN_PROGRESS",
          spans := agentSpanRunning ((lastUserContent req).trim) now ::
                   TraceStorage.completeSpanRecord (llm1SpanRunning req now)
                     (llmSummary c.message) "OK" now ::
                   (toolSpans impls (mkSpanId 1) now 2 c.message.tool_calls ++
                    [llm2SpanRunning impls req c.message.tool_calls now
                      (2 + c.message.tool_calls.length)]),
          user_message := (lastUserContent req).trim,
          execution_time_ms := none }) := by
    rw [TraceStorage.add_span_withTrace hL]
    rfl
  have htne : ∀ sp ∈ toolSpans impls (mkSpanId 1) now 2 c.message.tool_calls,
      sp.span_id ≠ mkSpanId (2 + c.message.tool_calls.length) := by
    intro sp hsp
    obtain ⟨m, h1, h2, h3⟩ := toolSpans_ids sp hsp
    rw [h3]
    exact mkSpanId_ne (by omega)
  have hcfF : TraceStorage.completeFirst
      (mkSpanId (2 + c.message.tool_calls.length))
      (.obj [("response", .str "")]) "OK" now
      (agentSpanRunning ((lastUserContent req).trim) now ::
       TraceStorage.completeSpanRecord (llm1SpanRunning req now)
         (llmSummary c.message) "OK" now ::
       (toolSpans impls (mkSpanId 1) now 2 c.message.tool_calls ++
        [llm2SpanRunning impls req c.message.tool_calls now
          (2 + c.message.tool_calls.length)])) =
      agentSpanRunning ((lastUserContent req).trim) now ::
      TraceStorage.completeSpanRecord (llm1SpanRunning req now)
        (llmSummary c.message) "OK" now ::
      (toolSpans impls (mkSpanId 1) now 2 c.message.tool_calls ++
       [TraceStorage.completeSpanRecord
          (llm2SpanRunning impls req c.message.tool_calls now
            (2 + c.message.tool_calls.length))
          (.obj [("response", .str "")]) "OK" now]) := by
    rw [completeFirst_cons_ne (mkSpanId_ne (by omega)),
      completeFirst_cons_ne (mkSpanId_ne (by omega)),
      TraceStorage.completeFirst_append_of_forall_ne htne,
      @TraceStorage.completeFirst_cons_self
        (llm2SpanRunning impls req c.message.tool_calls now
          (2 + c.message.tool_calls.length))
        (mkSpanId (2 + c.message.tool_calls.length)) rfl _ _ now []]
  have hcfA := @TraceStorage.completeFirst_cons_self
    (agentSpanRunning ((lastUserContent req).trim) now) (mkSpanId 0) rfl
    (.obj [("error", .str (HTTPError.str ⟨500, "No final response from model"⟩))])
    "ERROR" now
    (TraceStorage.completeSpanRecord (llm1SpanRunning req now)
       (llmSummary c.message) "OK" now ::
     (toolSpans impls (mkSpanId 1) now 2 c.message.tool_calls ++
      [TraceStorage.completeSpanRecord
         (llm2SpanRunning impls req c.message.tool_calls now
           (2 + c.message.tool_calls.length))
         (.obj [("response", .str "")]) "OK" now]))
  simp only [agent_chat, hcreate, hadd0, agentChatInner, if_neg htok, hadd1,
    hgw, hch, List.head?_cons, List.head?_nil, List.isEmpty_cons,
    List.isEmpty_nil, htc, Bool.not_false, reduceIte, Option.getD_none,
    TraceStorage.complete_span_withTrace hL, trAfterLlm1,
    cf_llm1 ((lastUserContent req).trim) req now (llmSummary c.message) "OK",
    hrun, List.cons_append, List.nil_append, hadd2, hgw2, hfch,
    hcfF, hcfA, TraceStorage.complete_trace_withTrace hL,
    Bool.false_eq_true, if_false]

/-! ## Claim theorems: trace-store robustness and eviction -/

theorem odGet_isSome_of_mem {l : List (String × Trace)} {k : String}
    (h : k ∈ l.map Prod.fst) : (TraceStorage.odGet l k).isSome = true := by
  induction l with
  | nil => simp at h
  | cons p rest ih =>
      obtain ⟨k', v'⟩ := p
      by_cases hk : k' = k
      · simp [TraceStorage.odGet, hk]
      · simp only [List.map_cons, List.mem_cons] at h
        rcases h with h | h
        · exact absurd h.symm hk
        · simp only [TraceStorage.odGet, if_neg hk]
          exact ih h

/-- C7: every trace-store operation degrades to a no-op on a missing key.
`add_span` on an unknown trace returns the sentinel `""` and leaves the
store unchanged; `complete_span` and `complete_trace` on an unknown trace,
and `complete_span` on a known trace but unknown span, return the store
unchanged (and, being total functions, never raise). -/
theorem trace_store_missing_key_noop (s : TraceStorage)
    (tid sid span_type name status : String) (inputs outputs : JValue)
    (parent_id : Option String) (fresh : String) (now : Nat) :
    (s.get_trace tid = none →
      s.add_span tid span_type name inputs parent_id fresh now = ("", s) ∧
      s.complete_span tid sid outputs status now = s ∧
      s.complete_trace tid status now = s) ∧
    (∀ tr, s.get_trace tid = some tr →
      (∀ sp ∈ tr.spans, sp.span_id ≠ sid) →
      s.complete_span tid sid outputs status now = s) := by
  constructor
  · intro h
    rw [TraceStorage.get_trace] at h
    refine ⟨?_, ?_, ?_⟩
    · rw [TraceStorage.add_span, h]
    · rw [TraceStorage.complete_span, h]
    · rw [TraceStorage.complete_trace, h]
  · intro tr h hne
    rw [TraceStorage.get_trace] at h
    rw [TraceStorage.complete_span, h]
    simp only [TraceStorage.completeFirst_of_forall_ne hne]
    rw [TraceStorage.odSet_of_odGet_eq h]

/-- Witness for C7 at a concrete store: one trace `"t"` holding one span
`"s0"`; the operations are applied to the unknown trace `"u"` and to the
unknown span `"zz"` of the known trace. -/
theorem trace_store_missing_key_noop_witness :
    wStore.add_span "u" "TOOL" "nm" .null none "f" 7 = ("", wStore) ∧
    wStore.complete_span "t" "zz" .null "OK" 7 = wStore := by
  constructor
  · exact ((trace_store_missing_key_noop wStore "u" "zz" "TOOL" "nm" "OK"
      .null .null none "f" 7).1 (by rfl)).1
  · exact (trace_store_missing_key_noop wStore "t" "zz" "TOOL" "nm" "OK"
      .null .null none "f" 7).2 wTrace (by rfl) (by
        intro sp hsp
        simp only [wTrace, List.mem_singleton] at hsp
        subst hsp
        decide)

/-- C5 (amended): a span is created with status RUNNING; `complete_span`
is a total function (it cannot throw) and records end time, duration,
outputs and status; but a second `complete_span` on the already-completed
span is NOT a no-op: it overwrites end time, duration, outputs and status
with the second call's values (last writer wins). -/
theorem complete_span_twice_overwrites (mx : Nat) (L : List (String × Trace))
    (tid : String) (tr : Trace) (hL : tid ∉ L.map Prod.fst)
    (span_type name fresh : String) (inputs o1 o2 : JValue)
    (parent_id : Option String) (st1 st2 : String) (now t1 t2 : Nat)
    (hne : ∀ sp ∈ tr.spans, sp.span_id ≠ fresh) :
    ((spanRunningOf fresh span_type name inputs parent_id now).status = "RUNNING") ∧
    (((TraceStorage.withTrace mx L tid tr).add_span tid span_type name inputs
        parent_id fresh now).2.get_trace tid =
      some { tr with spans := tr.spans ++
        [spanRunningOf fresh span_type name inputs parent_id now] }) ∧
    ((((TraceStorage.withTrace mx L tid tr).add_span tid span_type name inputs
        parent_id fresh now).2.complete_span tid fresh o1 st1 t1).get_trace tid =
      some { tr with spans := tr.spans ++
        [TraceStorage.completeSpanRecord
          (spanRunningOf fresh span_type name inputs parent_id now) o1 st1 t1] }) ∧
    (((((TraceStorage.withTrace mx L tid tr).add_span tid span_type name inputs
        parent_id fresh now).2.complete_span tid fresh o1 st1 t1).complete_span
          tid fresh o2 st2 t2).get_trace tid =
      some { tr with spans := tr.spans ++
        [TraceStorage.completeSpanRecord
          (TraceStorage.completeSpanRecord
            (spanRunningOf fresh span_type name inputs parent_id now) o1 st1 t1)
          o2 st2 t2] }) ∧
    ((TraceStorage.completeSpanRecord
        (TraceStorage.completeSpanRecord
          (spanRunningOf fresh span_type name inputs parent_id now) o1 st1 t1)
        o2 st2 t2).status = st2) ∧
    ((TraceStorage.completeSpanRecord
        (TraceStorage.completeSpanRecord
          (spanRunningOf fresh span_type name inputs parent_id now) o1 st1 t1)
        o2 st2 t2).end_time_ms = some t2) ∧
    ((TraceStorage.completeSpanRecord
        (TraceStorage.completeSpanRecord
          (spanRunningOf fresh span_type name inputs parent_id now) o1 st1 t1)
        o2 st2 t2).outputs = some o2) := by
  have hadd : (TraceStorage.withTrace mx L tid tr).add_span tid span_type name
      inputs parent_id fresh now =
      (fresh, TraceStorage.withTrace mx L tid { tr with spans := tr.spans ++
        [spanRunningOf fresh span_type name inputs parent_id now] }) := by
    rw [@TraceStorage.add_span_withTrace L tid tr hL mx span_type name inputs
      parent_id fresh now]
    rfl
  have hcf1 := @TraceStorage.completeFirst_append_of_forall_ne tr.spans
    [spanRunningOf fresh span_type name inputs parent_id now] fresh hne o1 st1 t1
  have hcf1' := @TraceStorage.completeFirst_cons_self
    (spanRunningOf fresh span_type name inputs parent_id now) fresh rfl o1 st1 t1 []
  have hcf2 := @TraceStorage.completeFirst_append_of_forall_ne tr.spans
    [TraceStorage.completeSpanRecord
      (spanRunningOf fresh span_type name inputs parent_id now) o1 st1 t1]
    fresh hne o2 st2 t2
  have hcf2' := @TraceStorage.completeFirst_cons_self
    (TraceStorage.completeSpanRecord
      (spanRunningOf fresh span_type name inputs parent_id now) o1 st1 t1)
    fresh rfl o2 st2 t2 []
  refine ⟨rfl, ?_, ?_, ?_, rfl, rfl, rfl⟩
  · simp only [hadd, TraceStorage.get_trace_withTrace hL]
  · simp only [hadd, TraceStorage.complete_span_withTrace hL, hcf1, hcf1',
      TraceStorage.get_trace_withTrace hL]
  · simp only [hadd, TraceStorage.complete_span_withTrace hL, hcf1, hcf1',
      hcf2, hcf2', TraceStorage.get_trace_withTrace hL]

/-- Witness for the amended C5 at a concrete store. -/
theorem complete_span_twice_overwrites_witness :
    ((((TraceStorage.withTrace 100 [] "t" wTrace).add_span "t" "TOOL" "n2"
        .null none "f9" 5).2.complete_span "t" "f9" (.str "a") "OK" 10).complete_span
          "t" "f9" (.str "b") "ERROR" 20).get_trace "t" =
      some { trace_id := "t", request_id := "t", timestamp_ms := 0,
             status := "IN_PROGRESS",
             spans := [wSpan,
               TraceStorage.completeSpanRecord
                 (TraceStorage.completeSpanRecord
                   (spanRunningOf "f9" "TOOL" "n2" .null none 5) (.str "a") "OK" 10)
                 (.str "b") "ERROR" 20],
             user_message := "m" } := by
  have h := (complete_span_twice_overwrites 100 [] "t" wTrace (by simp) "TOOL"
    "n2" "f9" .null (.str "a") (.str "b") none "OK" "ERROR" 5 10 20 (by
      intro sp hsp
      simp only [wTrace, List.mem_singleton] at hsp
      subst hsp
      decide)).2.2.2.1
  simpa [wTrace] using h

/-- Counterexample to C5 as stated: a second `complete_span` call does
change the recorded status, end time, duration and outputs.  After
completing span `"f9"` at time 10 with status OK, a second completion at
time 20 with status ERROR leaves the span with end time 20 and status
ERROR, not the originally recorded 10 / OK. -/
theorem complete_span_second_call_changes_span :
    (((((TraceStorage.withTrace 100 [] "t" wTrace).add_span "t" "TOOL" "n2"
        .null none "f9" 5).2.complete_span "t" "f9" (.str "a") "OK" 10).get_trace
          "t").map (fun tr => tr.spans.map (fun sp => (sp.status, sp.end_time_ms))) =
      some [("RUNNING", none), ("OK", some 10)]) ∧
    ((((((TraceStorage.withTrace 100 [] "t" wTrace).add_span "t" "TOOL" "n2"
        .null none "f9" 5).2.complete_span "t" "f9" (.str "a") "OK" 10).complete_span
          "t" "f9" (.str "b") "ERROR" 20).get_trace
          "t").map (fun tr => tr.spans.map (fun sp => (sp.status, sp.end_time_ms))) =
      some [("RUNNING", none), ("ERROR", some 20)]) ∧
    (("OK", (some 10 : Option Nat)) ≠ ("ERROR", some 20)) := by
  refine ⟨by rfl, by rfl, by decide⟩

/-- Folding `create_trace` over fresh, pairwise-distinct ids keeps the last
`max_traces` entries of the concatenation, in insertion order. -/
theorem createMany_traces (now : Nat) :
    ∀ (l : List (String × String)) (s : TraceStorage),
      s.traces.length ≤ s.max_traces →
      ((s.traces.map Prod.fst) ++ l.map Prod.fst).Nodup →
      (createMany now s l).max_traces = s.max_traces ∧
      (createMany now s l).traces =
        (s.traces ++ l.map (entryOf now)).drop
          ((s.traces.length + l.length) - s.max_traces) := by
  intro l
  induction l with
  | nil =>
      intro s hlen _
      have h0 : s.traces.length + 0 - s.max_traces = 0 := by omega
      have h0' : s.traces.length - s.max_traces = 0 := by omega
      simp [createMany, h0, h0']
  | cons p rest ih =>
      intro s hlen hnd
      have hfresh : p.1 ∉ s.traces.map Prod.fst := by
        rw [List.nodup_append] at hnd
        intro hmem
        exact hnd.2.2 hmem (by simp)
      have hstep : (s.create_trace p.1 p.2 p.1 now).2 =
          ⟨s.max_traces, (s.traces ++ [entryOf now p]).drop
            ((s.traces.length + 1) - s.max_traces)⟩ := by
        simp only [TraceStorage.create_trace, ite_self,
          TraceStorage.odSet_fresh hfresh, TraceStorage.evict_eq_drop,
          List.length_append, List.length_singleton, entryOf,
          TraceStorage.initTrace]
      have hlen1 : ((s.traces ++ [entryOf now p]).drop
          ((s.traces.length + 1) - s.max_traces)).length ≤ s.max_traces := by
        rw [List.length_drop]
        simp only [List.length_append, List.length_singleton]
        omega
      have hnd1 : ((((s.traces ++ [entryOf now p]).drop
            ((s.traces.length + 1) - s.max_traces)).map Prod.fst) ++
          rest.map Prod.fst).Nodup := by
        have hsub := List.Sublist.append_right
          ((List.drop_sublist ((s.traces.length + 1) - s.max_traces)
            (s.traces ++ [entryOf now p])).map Prod.fst)
          (rest.map Prod.fst)
        refine hsub.nodup ?_
        have heq : ((s.traces ++ [entryOf now p]).map Prod.fst) ++ rest.map Prod.fst =
            (s.traces.map Prod.fst) ++ (p :: rest).map Prod.fst := by
          simp [entryOf]
        rw [heq]
        exact hnd
      have hih := ih ⟨s.max_traces, (s.traces ++ [entryOf now p]).drop
        ((s.traces.length + 1) - s.max_traces)⟩ hlen1 hnd1
      simp only [createMany, hstep]
      refine ⟨hih.1, ?_⟩
      rw [hih.2]
      have hA : ((s.traces ++ [entryOf now p]).drop
            ((s.traces.length + 1) - s.max_traces)) ++ rest.map (entryOf now) =
          ((s.traces ++ [entryOf now p]) ++ rest.map (entryOf now)).drop
            ((s.traces.length + 1) - s.max_traces) :=
        (List.drop_append_of_le_length (by
          simp only [List.length_append, List.length_singleton]; omega)).symm
      rw [hA, List.drop_drop]
      have hidx : (s.traces.length + 1) - s.max_traces +
          (((s.traces ++ [entryOf now p]).drop
            ((s.traces.length + 1) - s.max_traces)).length + rest.length
            - s.max_traces) =
          s.traces.length + (p :: rest).length - s.max_traces := by
        rw [List.length_drop]
        simp only [List.length_append, List.length_singleton, List.length_cons,
          List.length_nil]
        omega
      rw [hidx]
      congr 1
      simp [List.append_assoc]

/-- C6: `create_trace` called `N+5` times with distinct (non-falsy)
request ids on a store bounded to `N` leaves exactly `N` traces; the 5
oldest-created ones are gone (`get_trace` returns none) and the `N`
newest remain (FIFO eviction in insertion order). -/
theorem trace_store_fifo_eviction (N now : Nat) (l : List (String × String))
    (hlen : l.length = N + 5)
    (hnd : (l.map Prod.fst).Nodup)
    (hne : ∀ p ∈ l, p.1 ≠ "") :
    (createMany now ⟨N, []⟩ l).get_total_traces = N ∧
    (∀ p ∈ l.take 5, (createMany now (⟨N, []⟩ : TraceStorage) l).get_trace p.1 = none) ∧
    (∀ p ∈ l.drop 5, ((createMany now (⟨N, []⟩ : TraceStorage) l).get_trace p.1).isSome
      = true) := by
  have h := createMany_traces now l ⟨N, []⟩ (by simp) (by simpa using hnd)
  have hidx : (TraceStorage.mk N []).traces.length + l.length -
      (TraceStorage.mk N []).max_traces = 5 := by
    simp only [List.length_nil]
    omega
  have htr : (createMany now ⟨N, []⟩ l).traces = (l.map (entryOf now)).drop 5 := by
    rw [h.2, hidx]
    simp
  have hkeys : ((l.map (entryOf now)).drop 5).map Prod.fst =
      (l.map Prod.fst).drop 5 := by
    rw [List.map_drop, List.map_map]
    congr 1
  refine ⟨?_, ?_, ?_⟩
  · rw [TraceStorage.get_total_traces, htr, List.length_drop, List.length_map,
      hlen]
    omega
  · intro p hp
    rw [TraceStorage.get_trace, htr]
    apply TraceStorage.odGet_eq_none
    rw [hkeys]
    have hmem : p.1 ∈ (l.map Prod.fst).take 5 := by
      rw [← List.map_take]
      exact List.mem_map_of_mem Prod.fst hp
    have hnd' : ((l.map Prod.fst).take 5 ++ (l.map Prod.fst).drop 5).Nodup := by
      rw [List.take_append_drop]
      exact hnd
    rw [List.nodup_append] at hnd'
    exact hnd'.2.2 hmem
  · intro p hp
    rw [TraceStorage.get_trace, htr]
    apply odGet_isSome_of_mem
    rw [hkeys, ← List.map_drop]
    exact List.mem_map_of_mem Prod.fst hp

/-- Witness for C6: bound 2, seven distinct ids; the first five are gone,
the last two remain. -/
theorem trace_store_fifo_eviction_witness :
    (createMany 0 ⟨2, []⟩
      [("a", "m"), ("b", "m"), ("c", "m"), ("d", "m"), ("e", "m"),
       ("f", "m"), ("g", "m")]).get_total_traces = 2 ∧
    (∀ p ∈ ([("a", "m"), ("b", "m"), ("c", "m"), ("d", "m"), ("e", "m"),
       ("f", "m"), ("g", "m")] : List (String × String)).take 5,
      (createMany 0 (⟨2, []⟩ : TraceStorage)
        [("a", "m"), ("b", "m"), ("c", "m"), ("d", "m"), ("e", "m"),
         ("f", "m"), ("g", "m")]).get_trace p.1 = none) ∧
    (∀ p ∈ ([("a", "m"), ("b", "m"), ("c", "m"), ("d", "m"), ("e", "m"),
       ("f", "m"), ("g", "m")] : List (String × String)).drop 5,
      ((createMany 0 (⟨2, []⟩ : TraceStorage)
        [("a", "m"), ("b", "m"), ("c", "m"), ("d", "m"), ("e", "m"),
         ("f", "m"), ("g", "m")]).get_trace p.1).isSome = true) :=
  trace_store_fifo_eviction 2 0
    [("a", "m"), ("b", "m"), ("c", "m"), ("d", "m"), ("e", "m"),
     ("f", "m"), ("g", "m")]
    (by decide) (by decide) (by decide)

/-! ## Concrete fixtures for witnesses and counterexamples -/

/-! ## Extraction lemmas for the tool spans and results -/

theorem toolSpans_length (impls : ToolImpls) (llm : String) (now : Nat) :
    ∀ (tcs : List ToolCall) (ctr : Nat),
      (toolSpans impls llm now ctr tcs).length = tcs.length := by
  intro tcs
  induction tcs with
  | nil => intro ctr; rfl
  | cons tc rest ih =>
      intro ctr
      simp only [toolSpans, List.length_cons, ih]

theorem toolSpans_getElem (impls : ToolImpls) (llm : String) (now : Nat) :
    ∀ (tcs : List ToolCall) (ctr i : Nat) (tc : ToolCall),
      tcs[i]? = some tc →
      (toolSpans impls llm now ctr tcs)[i]? =
        some (toolSpanOf impls llm now (ctr + i) tc) := by
  intro tcs
  induction tcs with
  | nil => intro ctr i tc h; simp at h
  | cons hd rest ih =>
      intro ctr i tc h
      cases i with
      | zero =>
          simp only [List.getElem?_cons_zero, Option.some.injEq] at h
          subst h
          simp [toolSpans]
      | succ j =>
          simp only [List.getElem?_cons_succ] at h
          simp only [toolSpans, List.getElem?_cons_succ]
          rw [ih (ctr + 1) j tc h, show ctr + 1 + j = ctr + (j + 1) from by omega]

theorem toolSpanOf_span_type (impls : ToolImpls) (llm : String) (now ctr : Nat)
    (tc : ToolCall) : (toolSpanOf impls llm now ctr tc).span_type = "TOOL" := by
  unfold toolSpanOf
  cases executeTool impls tc.name tc.arguments <;>
    simp [TraceStorage.completeSpanRecord, toolSpanRunning]

theorem toolSpanOf_name (impls : ToolImpls) (llm : String) (now ctr : Nat)
    (tc : ToolCall) : (toolSpanOf impls llm now ctr tc).name = tc.name := by
  unfold toolSpanOf
  cases executeTool impls tc.name tc.arguments <;>
    simp [TraceStorage.completeSpanRecord, toolSpanRunning]

theorem toolSpanOf_parent (impls : ToolImpls) (llm : String) (now ctr : Nat)
    (tc : ToolCall) : (toolSpanOf impls llm now ctr tc).parent_id = some llm := by
  unfold toolSpanOf
  cases executeTool impls tc.name tc.arguments <;>
    simp [TraceStorage.completeSpanRecord, toolSpanRunning]

theorem toolSpanOf_status (impls : ToolImpls) (llm : String) (now ctr : Nat)
    (tc : ToolCall) :
    (toolSpanOf impls llm now ctr tc).status =
      match executeTool impls tc.name tc.arguments with
      | .ok _ => "OK"
      | .error _ => "ERROR" := by
  unfold toolSpanOf
  cases executeTool impls tc.name tc.arguments <;>
    simp [TraceStorage.completeSpanRecord, toolSpanRunning]

theorem mem_toolResultsOf {impls : ToolImpls} {tcs : List ToolCall}
    {tc : ToolCall} {e : String} (htc : tc ∈ tcs)
    (he : executeTool impls tc.name tc.arguments = .error e) :
    (⟨tc.id, toolFailure e⟩ : ToolResultMsg) ∈ toolResultsOf impls tcs := by
  induction tcs with
  | nil => simp at htc
  | cons hd rest ih =>
      rcases List.mem_cons.mp htc with rfl | hmem
      · simp [toolResultsOf, he]
      · simp only [toolResultsOf, List.mem_cons]
        exact Or.inr (ih hmem)

/-! ## The span-tree well-formedness predicate (C9) -/

theorem mem_toolSpans_fields {impls : ToolImpls} {llm : String} {now : Nat} :
    ∀ {tcs : List ToolCall} {ctr : Nat} (sp : Span),
      sp ∈ toolSpans impls llm now ctr tcs →
      sp.span_type = "TOOL" ∧ sp.parent_id = some llm := by
  intro tcs
  induction tcs with
  | nil => intro ctr sp h; simp [toolSpans] at h
  | cons tc rest ih =>
      intro ctr sp h
      simp only [toolSpans, List.mem_cons] at h
      rcases h with rfl | h
      · exact ⟨toolSpanOf_span_type .., toolSpanOf_parent ..⟩
      · exact ih sp h

theorem spanTreeOK_single {A : Span} (hA : A.span_type = "AGENT")
    (hApar : A.parent_id = none) : spanTreeOK [A] := by
  refine ⟨by simp [hA], ⟨A, rfl, hA, hApar⟩, ?_, ?_, ?_⟩
  · intro i sp hget hn
    cases i with
    | zero =>
        simp only [List.getElem?_cons_zero, Option.some.injEq] at hget
        subst hget
        exact absurd hA hn
    | succ j => simp at hget
  · intro sp hsp hty
    simp only [List.mem_singleton] at hsp
    subst hsp
    rw [hA] at hty
    exact absurd hty (by decide)
  · intro sp hsp hty
    simp only [List.mem_singleton] at hsp
    subst hsp
    rw [hA] at hty
    exact absurd hty (by decide)

theorem spanTreeOK_pair {A B : Span} (hA : A.span_type = "AGENT")
    (hApar : A.parent_id = none) (hAid : A.span_id = mkSpanId 0)
    (hB : B.span_type = "LLM") (hBpar : B.parent_id = some (mkSpanId 0)) :
    spanTreeOK [A, B] := by
  refine ⟨by simp [hA, hB], ⟨A, rfl, hA, hApar⟩, ?_, ?_, ?_⟩
  · intro i sp hget hn
    match i with
    | 0 =>
        simp only [List.getElem?_cons_zero, Option.some.injEq] at hget
        subst hget
        exact absurd hA hn
    | 1 =>
        simp only [List.getElem?_cons_succ, List.getElem?_cons_zero,
          Option.some.injEq] at hget
        subst hget
        exact ⟨mkSpanId 0, hBpar, 0, A, by omega, rfl, hAid⟩
    | (j + 2) => simp at hget
  · intro sp hsp hty
    simp only [List.mem_cons, List.mem_singleton, List.not_mem_nil,
      or_false] at hsp
    rcases hsp with rfl | rfl
    · rw [hA] at hty; exact absurd hty (by decide)
    · exact ⟨A, by simp, hA, by rw [hBpar, hAid]⟩
  · intro sp hsp hty
    simp only [List.mem_cons, List.mem_singleton, List.not_mem_nil,
      or_false] at hsp
    rcases hsp with rfl | rfl
    · rw [hA] at hty; exact absurd hty (by decide)
    · rw [hB] at hty; exact absurd hty (by decide)

theorem spanTreeOK_toolShape {A B F : Span} {ts : List Span}
    (hA : A.span_type = "AGENT") (hApar : A.parent_id = none)
    (hAid : A.span_id = mkSpanId 0)
    (hB : B.span_type = "LLM") (hBpar : B.parent_id = some (mkSpanId 0))
    (hBid : B.span_id = mkSpanId 1)
    (hts : ∀ sp ∈ ts, sp.span_type = "TOOL" ∧ sp.parent_id = some (mkSpanId 1))
    (hF : F.span_type = "LLM") (hFpar : F.parent_id = some (mkSpanId 0)) :
    spanTreeOK (A :: B :: (ts ++ [F])) := by
  have hcount : (A :: B :: (ts ++ [F])).countP
      (fun sp => sp.span_type == "AGENT") = 1 := by
    simp only [List.countP_cons, List.countP_append, hA, hB, hF]
    have hts0 : ts.countP (fun sp => sp.span_type == "AGENT") = 0 := by
      rw [List.countP_eq_zero]
      intro sp hsp
      rw [(hts sp hsp).1]
      decide
    simp [hts0]
  refine ⟨hcount, ⟨A, rfl, hA, hApar⟩, ?_, ?_, ?_⟩
  · intro i sp hget hn
    match i with
    | 0 =>
        simp only [List.getElem?_cons_zero, Option.some.injEq] at hget
        subst hget
        exact absurd hA hn
    | 1 =>
        simp only [List.getElem?_cons_succ, List.getElem?_cons_zero,
          Option.some.injEq] at hget
        subst hget
        exact ⟨mkSpanId 0, hBpar, 0, A, by omega, rfl, hAid⟩
    | (k + 2) =>
        simp only [List.getElem?_cons_succ] at hget
        by_cases hk : k < ts.length
        · rw [List.getElem?_append_left hk] at hget
          have hmem : sp ∈ ts := List.getElem?_mem hget
          exact ⟨mkSpanId 1, (hts sp hmem).2, 1, B, by omega, by simp, hBid⟩
        · rw [List.getElem?_append_right (by omega)] at hget
          rcases Nat.lt_trichotomy (k - ts.length) 1 with h1 | h1 | h1
          · have h0 : k - ts.length = 0 := by omega
            rw [h0] at hget
            simp only [List.getElem?_cons_zero, Option.some.injEq] at hget
            subst hget
            exact ⟨mkSpanId 0, hFpar, 0, A, by omega, by simp, hAid⟩
          · rw [h1] at hget
            simp at hget
          · have : ∃ m, k - ts.length = m + 2 := ⟨k - ts.length - 2, by omega⟩
            obtain ⟨m, hm⟩ := this
            rw [hm] at hget
            simp at hget
  · intro sp hsp hty
    simp only [List.mem_cons, List.mem_append, List.mem_singleton,
      List.not_mem_nil, or_false] at hsp
    rcases hsp with rfl | rfl | hsp | rfl
    · rw [hA] at hty; exact absurd hty (by decide)
    · exact ⟨A, by simp, hA, by rw [hBpar, hAid]⟩
    · rw [(hts sp hsp).1] at hty; exact absurd hty (by decide)
    · exact ⟨A, by simp, hA, by rw [hFpar, hAid]⟩
  · intro sp hsp hty
    simp only [List.mem_cons, List.mem_append, List.mem_singleton,
      List.not_mem_nil, or_false] at hsp
    rcases hsp with rfl | rfl | hsp | rfl
    · rw [hA] at hty; exact absurd hty (by decide)
    · rw [hB] at hty; exact absurd hty (by decide)
    · exact ⟨B, by simp, hB, by rw [(hts sp hsp).2, hBid]⟩
    · rw [hF] at hty; exact absurd hty (by decide)

/-! ## Claim theorems: the endpoint -/

/-- C1 (amended): there is no iteration loop and no budget.  When the model
keeps returning tool calls, the endpoint performs exactly 2 Gateway calls
(one tool round), does not execute the second response's tool calls,
returns the second response's content (not an apology/iteration count),
and completes the trace OK. -/
theorem claim_C1_no_iteration_loop (impls : ToolImpls) (gw : Gateway)
    (token : String) (req : AgentChatRequest) (tid : String)
    (st0 : TraceStorage) (now : Nat)
    (hfresh : tid ∉ st0.traces.map Prod.fst) (hmx : 1 ≤ st0.max_traces)
    (htok : ¬ token = "")
    (resp : ModelResponse) (c : Choice) (cs : List Choice)
    (hgw : gw (initialConversation req) = .ok resp)
    (hch : resp.choices = c :: cs)
    (htc : c.message.tool_calls.isEmpty = false)
    (fresp : ModelResponse) (fc : Choice) (fcs : List Choice)
    (hgw2 : gw (followupConversation req c.message
      (toolResultsOf impls c.message.tool_calls)) = .ok fresp)
    (hfch : fresp.choices = fc :: fcs)
    (htc2 : fc.message.tool_calls.isEmpty = false) :
    (agent_chat impls gw token req tid st0 now).gatewayCalls = 2 ∧
    (agent_chat impls gw token req tid st0 now).outcome =
      .ok ⟨orElseStr fc.message.content apologyText, some tid,
        some ((executedToolsOf impls c.message.tool_calls).map
          ExecutedTool.toJValue)⟩ ∧
    ∃ tr, (agent_chat impls gw token req tid st0 now).storage.get_trace tid =
      some tr ∧ tr.status = "OK" := by
  obtain ⟨L, hL, heq⟩ := agent_chat_tools_ok impls gw token req tid st0 now
    hfresh hmx htok resp c cs hgw hch htc fresp fc fcs hgw2 hfch
  refine ⟨by rw [heq], by rw [heq], ?_⟩
  rw [heq]
  exact ⟨_, TraceStorage.get_trace_withTrace hL _, rfl⟩

/-- Witness for the amended C1: a gateway that always requests a tool call
still terminates after 2 calls with an OK trace. -/
theorem claim_C1_no_iteration_loop_witness :
    (agent_chat implsAllOk gwAlwaysTools "tok" reqSample "tid" ⟨100, []⟩ 5).gatewayCalls
      = 2 ∧
    (agent_chat implsAllOk gwAlwaysTools "tok" reqSample "tid" ⟨100, []⟩ 5).outcome =
      .ok ⟨orElseStr (some "still working") apologyText, some "tid",
        some ((executedToolsOf implsAllOk [sampleToolCall]).map
          ExecutedTool.toJValue)⟩ ∧
    ∃ tr, (agent_chat implsAllOk gwAlwaysTools "tok" reqSample "tid"
        ⟨100, []⟩ 5).storage.get_trace "tid" = some tr ∧ tr.status = "OK" :=
  claim_C1_no_iteration_loop implsAllOk gwAlwaysTools "tok" reqSample "tid"
    ⟨100, []⟩ 5 (by simp) (by decide) (by decide)
    ⟨[⟨⟨some "still working", [sampleToolCall]⟩⟩]⟩
    ⟨⟨some "still working", [sampleToolCall]⟩⟩ [] rfl rfl rfl
    ⟨[⟨⟨some "still working", [sampleToolCall]⟩⟩]⟩
    ⟨⟨some "still working", [sampleToolCall]⟩⟩ [] rfl rfl rfl

/-- Counterexample to C1 as stated: with a model that always returns a
tool call, the run makes only 2 Gateway calls (not an iteration budget of
10) and returns the second response's text, not a fixed apology. -/
theorem claim_C1_counterexample :
    ((agent_chat implsAllOk gwAlwaysTools "tok" reqSample "tid"
        ⟨100, []⟩ 5).outcome.map (fun r => r.response) = .ok "still working") ∧
    (agent_chat implsAllOk gwAlwaysTools "tok" reqSample "tid"
        ⟨100, []⟩ 5).gatewayCalls = 2 ∧
    ("still working" ≠ apologyText) ∧ ((2 : Nat) ≠ 10) := by
  refine ⟨rfl, rfl, by decide, by decide⟩

/-- C2 (amended): a successful direct answer returns the response text and
the trace id after exactly one Gateway call; the response model's fields
are `response`, `trace_id` and `tool_calls` — there is no `iterations`
field. -/
theorem claim_C2_response_shape (impls : ToolImpls) (gw : Gateway)
    (token : String) (req : AgentChatRequest) (tid : String)
    (st0 : TraceStorage) (now : Nat)
    (hfresh : tid ∉ st0.traces.map Prod.fst) (hmx : 1 ≤ st0.max_traces)
    (htok : ¬ token = "")
    (resp : ModelResponse) (c : Choice) (cs : List Choice)
    (hgw : gw (initialConversation req) = .ok resp)
    (hch : resp.choices = c :: cs)
    (htc : c.message.tool_calls = []) :
    (agent_chat impls gw token req tid st0 now).outcome =
      .ok ⟨orElseStr c.message.content apologyText, some tid, none⟩ ∧
    (agent_chat impls gw token req tid st0 now).gatewayCalls = 1 ∧
    "response" ∈ AgentChatResponse.fieldNames ∧
    "trace_id" ∈ AgentChatResponse.fieldNames ∧
    "iterations" ∉ AgentChatResponse.fieldNames := by
  obtain ⟨L, hL, heq⟩ := agent_chat_direct_ok impls gw token req tid st0 now
    hfresh hmx htok resp c cs hgw hch htc
  exact ⟨by rw [heq], by rw [heq], by decide, by decide, by decide⟩

/-- Witness for the amended C2 at a concrete direct-answer run. -/
theorem claim_C2_response_shape_witness :
    (agent_chat implsAllOk gwDirect "tok" reqSample "tid" ⟨100, []⟩ 5).outcome =
      .ok ⟨orElseStr (some "Hello!") apologyText, some "tid", none⟩ ∧
    (agent_chat implsAllOk gwDirect "tok" reqSample "tid" ⟨100, []⟩ 5).gatewayCalls
      = 1 ∧
    "response" ∈ AgentChatResponse.fieldNames ∧
    "trace_id" ∈ AgentChatResponse.fieldNames ∧
    "iterations" ∉ AgentChatResponse.fieldNames :=
  claim_C2_response_shape implsAllOk gwDirect "tok" reqSample "tid" ⟨100, []⟩ 5
    (by simp) (by decide) (by decide) ⟨[⟨⟨some "Hello!", []⟩⟩]⟩
    ⟨⟨some "Hello!", []⟩⟩ [] rfl rfl rfl

/-- Counterexample to C2 as stated: the endpoint's result has no
`iterations` member at all — its pydantic fields are exactly `response`,
`trace_id`, `tool_calls` — even on a successful one-call run. -/
theorem claim_C2_counterexample :
    ("iterations" ∉ AgentChatResponse.fieldNames) ∧
    ((agent_chat implsAllOk gwDirect "tok" reqSample "tid" ⟨100, []⟩ 5).outcome.map
      (fun r => (r.response, r.trace_id)) = .ok ("Hello!", some "tid")) ∧
    ((agent_chat implsAllOk gwDirect "tok" reqSample "tid" ⟨100, []⟩ 5).gatewayCalls
      = 1) := by
  refine ⟨by decide, rfl, rfl⟩

/-- C10: when the chosen message's content is missing or empty — on the
direct path or after a tool round — the endpoint returns the fixed apology
string with an HTTP success and trace status OK. -/
theorem claim_C10_falsy_content_apology (impls : ToolImpls) (gw : Gateway)
    (token : String) (req : AgentChatRequest) (tid : String)
    (st0 : TraceStorage) (now : Nat)
    (hfresh : tid ∉ st0.traces.map Prod.fst) (hmx : 1 ≤ st0.max_traces)
    (htok : ¬ token = "") :
    (∀ (resp : ModelResponse) (c : Choice) (cs : List Choice),
      gw (initialConversation req) = .ok resp → resp.choices = c :: cs →
      c.message.tool_calls = [] →
      (c.message.content = none ∨ c.message.content = some "") →
      (agent_chat impls gw token req tid st0 now).outcome =
        .ok ⟨apologyText, some tid, none⟩ ∧
      ∃ tr, (agent_chat impls gw token req tid st0 now).storage.get_trace tid =
        some tr ∧ tr.status = "OK") ∧
    (∀ (resp : ModelResponse) (c : Choice) (cs : List Choice)
        (fresp : ModelResponse) (fc : Choice) (fcs : List Choice),
      gw (initialConversation req) = .ok resp → resp.choices = c :: cs →
      c.message.tool_calls.isEmpty = false →
      gw (followupConversation req c.message
        (toolResultsOf impls c.message.tool_calls)) = .ok fresp →
      fresp.choices = fc :: fcs →
      (fc.message.content = none ∨ fc.message.content = some "") →
      (agent_chat impls gw token req tid st0 now).outcome =
        .ok ⟨apologyText, some tid,
          some ((executedToolsOf impls c.message.tool_calls).map
            ExecutedTool.toJValue)⟩ ∧
      ∃ tr, (agent_chat impls gw token req tid st0 now).storage.get_trace tid =
        some tr ∧ tr.status = "OK") := by
  constructor
  · intro resp c cs hgw hch htc hcontent
    obtain ⟨L, hL, heq⟩ := agent_chat_direct_ok impls gw token req tid st0 now
      hfresh hmx htok resp c cs hgw hch htc
    have happ : orElseStr c.message.content apologyText = apologyText := by
      rcases hcontent with h | h <;> rw [h] <;> rfl
    refine ⟨by rw [heq, happ], ?_⟩
    rw [heq]
    exact ⟨_, TraceStorage.get_trace_withTrace hL _, rfl⟩
  · intro resp c cs fresp fc fcs hgw hch htc hgw2 hfch hcontent
    obtain ⟨L, hL, heq⟩ := agent_chat_tools_ok impls gw token req tid st0 now
      hfresh hmx htok resp c cs hgw hch htc fresp fc fcs hgw2 hfch
    have happ : orElseStr fc.message.content apologyText = apologyText := by
      rcases hcontent with h | h <;> rw [h] <;> rfl
    refine ⟨by rw [heq, happ], ?_⟩
    rw [heq]
    exact ⟨_, TraceStorage.get_trace_withTrace hL _, rfl⟩

/-- Witness for C10 on the direct path: an empty-string content yields the
apology with trace OK. -/
theorem claim_C10_falsy_content_apology_witness :
    (agent_chat implsAllOk gwEmptyContent "tok" reqSample "tid" ⟨100, []⟩ 5).outcome =
      .ok ⟨apologyText, some "tid", none⟩ ∧
    ∃ tr, (agent_chat implsAllOk gwEmptyContent "tok" reqSample "tid"
      ⟨100, []⟩ 5).storage.get_trace "tid" = some tr ∧ tr.status = "OK" :=
  (claim_C10_falsy_content_apology implsAllOk gwEmptyContent "tok" reqSample
    "tid" ⟨100, []⟩ 5 (by simp) (by decide) (by decide)).1
    ⟨[⟨⟨some "", []⟩⟩]⟩ ⟨⟨some "", []⟩⟩ [] rfl rfl rfl (Or.inr rfl)

/-- C4: a raising tool handler is contained — its failure is serialized as
`{success: false, error: message}` in that call's `tool` message of the
follow-up conversation, and the request continues to a second Gateway
call (whatever that call's own outcome). -/
theorem claim_C4_handler_failure_contained (impls : ToolImpls) (gw : Gateway)
    (token : String) (req : AgentChatRequest) (tid : String)
    (st0 : TraceStorage) (now : Nat)
    (hfresh : tid ∉ st0.traces.map Prod.fst) (hmx : 1 ≤ st0.max_traces)
    (htok : ¬ token = "")
    (resp : ModelResponse) (c : Choice) (cs : List Choice)
    (hgw : gw (initialConversation req) = .ok resp)
    (hch : resp.choices = c :: cs)
    (htc : c.message.tool_calls.isEmpty = false)
    (tc : ToolCall) (e : String) (htcmem : tc ∈ c.message.tool_calls)
    (he : executeTool impls tc.name tc.arguments = .error e) :
    (agent_chat impls gw token req tid st0 now).gatewayCalls = 2 ∧
    (agent_chat impls gw token req tid st0 now).sentConversations =
      [initialConversation req,
       followupConversation req c.message
         (toolResultsOf impls c.message.tool_calls)] ∧
    (⟨"tool", some (toolFailure e), some tc.id, []⟩ : MMsg) ∈
      followupConversation req c.message
        (toolResultsOf impls c.message.tool_calls) := by
  have hmem : (⟨"tool", some (toolFailure e), some tc.id, []⟩ : MMsg) ∈
      followupConversation req c.message
        (toolResultsOf impls c.message.tool_calls) := by
    apply List.mem_append_right
    exact List.mem_map_of_mem toolMMsg (mem_toolResultsOf htcmem he)
  have hrest : (agent_chat impls gw token req tid st0 now).gatewayCalls = 2 ∧
      (agent_chat impls gw token req tid st0 now).sentConversations =
        [initialConversation req,
         followupConversation req c.message
           (toolResultsOf impls c.message.tool_calls)] := by
    cases hgw2 : gw (followupConversation req c.message
        (toolResultsOf impls c.message.tool_calls)) with
    | error e2 =>
        obtain ⟨L, hL, heq⟩ := agent_chat_tools_gw2_error impls gw token req tid
          st0 now hfresh hmx htok resp c cs hgw hch htc e2 hgw2
        exact ⟨by rw [heq], by rw [heq]⟩
    | ok fresp =>
        cases hfch : fresp.choices with
        | nil =>
            obtain ⟨L, hL, heq⟩ := agent_chat_tools_no_choices impls gw token req
              tid st0 now hfresh hmx htok resp c cs hgw hch htc fresp hgw2 hfch
            exact ⟨by rw [heq], by rw [heq]⟩
        | cons fc fcs =>
            obtain ⟨L, hL, heq⟩ := agent_chat_tools_ok impls gw token req tid
              st0 now hfresh hmx htok resp c cs hgw hch htc fresp fc fcs hgw2 hfch
            exact ⟨by rw [heq], by rw [heq]⟩
  exact ⟨hrest.1, hrest.2, hmem⟩

/-- Witness for C4: `describe_table_impl` raises "boom"; the tool message
with the structured failure is in the second conversation and a second
Gateway call is made. -/
theorem claim_C4_handler_failure_contained_witness :
    (agent_chat implsRaise gwToolsThenFinal "tok" reqSample "tid"
      ⟨100, []⟩ 5).gatewayCalls = 2 ∧
    (agent_chat implsRaise gwToolsThenFinal "tok" reqSample "tid"
      ⟨100, []⟩ 5).sentConversations =
      [initialConversation reqSample,
       followupConversation reqSample ⟨some "thinking", [sampleToolCall]⟩
         (toolResultsOf implsRaise [sampleToolCall])] ∧
    (⟨"tool", some (toolFailure "boom"), some "call1", []⟩ : MMsg) ∈
      followupConversation reqSample ⟨some "thinking", [sampleToolCall]⟩
        (toolResultsOf implsRaise [sampleToolCall]) :=
  claim_C4_handler_failure_contained implsRaise gwToolsThenFinal "tok" reqSample
    "tid" ⟨100, []⟩ 5 (by simp) (by decide) (by decide)
    ⟨[⟨⟨some "thinking", [sampleToolCall]⟩⟩]⟩
    ⟨⟨some "thinking", [sampleToolCall]⟩⟩ [] rfl rfl rfl
    sampleToolCall "boom" (List.mem_singleton.mpr rfl) rfl

/-- C8: a Gateway exception (on either call) surfaces as an HTTP 500 after
the current LLM span and the trace have been marked ERROR. -/
theorem claim_C8_gateway_error_500 (impls : ToolImpls) (gw : Gateway)
    (token : String) (req : AgentChatRequest) (tid : String)
    (st0 : TraceStorage) (now : Nat)
    (hfresh : tid ∉ st0.traces.map Prod.fst) (hmx : 1 ≤ st0.max_traces)
    (htok : ¬ token = "") :
    (∀ e, gw (initialConversation req) = .error e →
      (agent_chat impls gw token req tid st0 now).outcome =
        .error ⟨500, "Error calling Databricks Foundation Model: " ++ e⟩ ∧
      ∃ tr, (agent_chat impls gw token req tid st0 now).storage.get_trace tid =
        some tr ∧ tr.status = "ERROR" ∧
        ∃ sp, sp ∈ tr.spans ∧ sp.span_type = "LLM" ∧ sp.status = "ERROR") ∧
    (∀ (resp : ModelResponse) (c : Choice) (cs : List Choice) (e : String),
      gw (initialConversation req) = .ok resp → resp.choices = c :: cs →
      c.message.tool_calls.isEmpty = false →
      gw (followupConversation req c.message
        (toolResultsOf impls c.message.tool_calls)) = .error e →
      (agent_chat impls gw token req tid st0 now).outcome =
        .error ⟨500, "Error calling Databricks Foundation Model (final): " ++ e⟩ ∧
      ∃ tr, (agent_chat impls gw token req tid st0 now).storage.get_trace tid =
        some tr ∧ tr.status = "ERROR" ∧
        ∃ sp, sp ∈ tr.spans ∧ sp.span_type = "LLM" ∧ sp.status = "ERROR") := by
  constructor
  · intro e hgw
    obtain ⟨L, hL, heq⟩ := agent_chat_gw1_error impls gw token req tid st0 now
      hfresh hmx htok e hgw
    refine ⟨by rw [heq], ?_⟩
    rw [heq]
    refine ⟨_, TraceStorage.get_trace_withTrace hL _, rfl, ?_⟩
    exact ⟨TraceStorage.completeSpanRecord (llm1SpanRunning req now)
      (.obj [("error", .str e)]) "ERROR" now,
      List.mem_cons_of_mem _ (List.mem_singleton.mpr rfl), rfl, rfl⟩
  · intro resp c cs e hgw hch htc hgw2
    obtain ⟨L, hL, heq⟩ := agent_chat_tools_gw2_error impls gw token req tid
      st0 now hfresh hmx htok resp c cs hgw hch htc e hgw2
    refine ⟨by rw [heq], ?_⟩
    rw [heq]
    refine ⟨_, TraceStorage.get_trace_withTrace hL _, rfl, ?_⟩
    refine ⟨TraceStorage.completeSpanRecord
      (llm2SpanRunning impls req c.message.tool_calls now
        (2 + c.message.tool_calls.length))
      (.obj [("error", .str e)]) "ERROR" now, ?_, rfl, rfl⟩
    exact List.mem_cons_of_mem _ (List.mem_cons_of_mem _
      (List.mem_append_right _ (List.mem_singleton.mpr rfl)))

/-- Witness for C8 at a concrete first-call failure. -/
theorem claim_C8_gateway_error_500_witness :
    (agent_chat implsAllOk gwFail "tok" reqSample "tid" ⟨100, []⟩ 5).outcome =
      .error ⟨500, "Error calling Databricks Foundation Model: " ++
        "connection refused"⟩ ∧
    ∃ tr, (agent_chat implsAllOk gwFail "tok" reqSample "tid"
      ⟨100, []⟩ 5).storage.get_trace "tid" = some tr ∧ tr.status = "ERROR" ∧
      ∃ sp, sp ∈ tr.spans ∧ sp.span_type = "LLM" ∧ sp.status = "ERROR" :=
  (claim_C8_gateway_error_500 implsAllOk gwFail "tok" reqSample "tid"
    ⟨100, []⟩ 5 (by simp) (by decide) (by decide)).1 "connection refused" rfl

/-- C3 (amended): the TOOL span of an executed tool call is completed with
status OK when the handler returns and status ERROR when the handler
raises (it sits at position `2 + i` of the trace for the `i`-th call, as a
child of the first LLM span). -/
theorem claim_C3_tool_span_status (impls : ToolImpls) (gw : Gateway)
    (token : String) (req : AgentChatRequest) (tid : String)
    (st0 : TraceStorage) (now : Nat)
    (hfresh : tid ∉ st0.traces.map Prod.fst) (hmx : 1 ≤ st0.max_traces)
    (htok : ¬ token = "")
    (resp : ModelResponse) (c : Choice) (cs : List Choice)
    (hgw : gw (initialConversation req) = .ok resp)
    (hch : resp.choices = c :: cs)
    (htc : c.message.tool_calls.isEmpty = false)
    (i : Nat) (tc : ToolCall) (hi : c.message.tool_calls[i]? = some tc) :
    ∃ tr sp, (agent_chat impls gw token req tid st0 now).storage.get_trace tid =
      some tr ∧
      tr.spans[2 + i]? = some sp ∧
      sp.span_type = "TOOL" ∧ sp.name = tc.name ∧
      sp.parent_id = some (mkSpanId 1) ∧
      sp.status = (match executeTool impls tc.name tc.arguments with
        | .ok _ => "OK"
        | .error _ => "ERROR") := by
  have hlt : i < c.message.tool_calls.length := by
    rcases List.getElem?_eq_some.mp hi with ⟨h, _⟩
    exact h
  have hextract : ∀ (A B Z : Span),
      (A :: B :: (toolSpans impls (mkSpanId 1) now 2 c.message.tool_calls ++
        [Z]))[2 + i]? =
        some (toolSpanOf impls (mkSpanId 1) now (2 + i) tc) := by
    intro A B Z
    have h21 : (2 : Nat) + i = (i + 1) + 1 := by omega
    rw [h21, List.getElem?_cons_succ, List.getElem?_cons_succ]
    rw [List.getElem?_append_left (by rw [toolSpans_length]; omega)]
    exact h21 ▸ toolSpans_getElem impls (mkSpanId 1) now c.message.tool_calls 2 i tc hi
  have hfields : (toolSpanOf impls (mkSpanId 1) now (2 + i) tc).span_type = "TOOL" ∧
      (toolSpanOf impls (mkSpanId 1) now (2 + i) tc).name = tc.name ∧
      (toolSpanOf impls (mkSpanId 1) now (2 + i) tc).parent_id = some (mkSpanId 1) ∧
      (toolSpanOf impls (mkSpanId 1) now (2 + i) tc).status =
        (match executeTool impls tc.name tc.arguments with
          | .ok _ => "OK"
          | .error _ => "ERROR") :=
    ⟨toolSpanOf_span_type .., toolSpanOf_name .., toolSpanOf_parent ..,
      toolSpanOf_status ..⟩
  cases hgw2 : gw (followupConversation req c.message
      (toolResultsOf impls c.message.tool_calls)) with
  | error e2 =>
      obtain ⟨L, hL, heq⟩ := agent_chat_tools_gw2_error impls gw token req tid
        st0 now hfresh hmx htok resp c cs hgw hch htc e2 hgw2
      rw [heq]
      exact ⟨_, _, TraceStorage.get_trace_withTrace hL _, hextract _ _ _,
        hfields.1, hfields.2.1, hfields.2.2.1, hfields.2.2.2⟩
  | ok fresp =>
      cases hfch : fresp.choices with
      | nil =>
          obtain ⟨L, hL, heq⟩ := agent_chat_tools_no_choices impls gw token req
            tid st0 now hfresh hmx htok resp c cs hgw hch htc fresp hgw2 hfch
          rw [heq]
          exact ⟨_, _, TraceStorage.get_trace_withTrace hL _, hextract _ _ _,
            hfields.1, hfields.2.1, hfields.2.2.1, hfields.2.2.2⟩
      | cons fc fcs =>
          obtain ⟨L, hL, heq⟩ := agent_chat_tools_ok impls gw token req tid
            st0 now hfresh hmx htok resp c cs hgw hch htc fresp fc fcs hgw2 hfch
          rw [heq]
          exact ⟨_, _, TraceStorage.get_trace_withTrace hL _, hextract _ _ _,
            hfields.1, hfields.2.1, hfields.2.2.1, hfields.2.2.2⟩

/-- Witness for the amended C3: the raising `describe_table` handler gives
a TOOL span with status ERROR at position 2 of the trace. -/
theorem claim_C3_tool_span_status_witness :
    ∃ tr sp, (agent_chat implsRaise gwToolsThenFinal "tok" reqSample "tid"
      ⟨100, []⟩ 5).storage.get_trace "tid" = some tr ∧
      tr.spans[2 + 0]? = some sp ∧
      sp.span_type = "TOOL" ∧ sp.name = sampleToolCall.name ∧
      sp.parent_id = some (mkSpanId 1) ∧
      sp.status = (match executeTool implsRaise sampleToolCall.name
          sampleToolCall.arguments with
        | .ok _ => "OK"
        | .error _ => "ERROR") :=
  claim_C3_tool_span_status implsRaise gwToolsThenFinal "tok" reqSample "tid"
    ⟨100, []⟩ 5 (by simp) (by decide) (by decide)
    ⟨[⟨⟨some "thinking", [sampleToolCall]⟩⟩]⟩
    ⟨⟨some "thinking", [sampleToolCall]⟩⟩ [] rfl rfl rfl 0 sampleToolCall rfl

/-- Counterexample to C3 as stated: with a raising handler, the TOOL span
of the executed call is completed with status ERROR, not OK. -/
theorem claim_C3_counterexample :
    (((agent_chat implsRaise gwToolsThenFinal "tok" reqSample "tid"
        ⟨100, []⟩ 5).storage.get_trace "tid").map
      (fun tr => tr.spans.map (fun sp => (sp.span_type, sp.status))) =
      some [("AGENT", "OK"), ("LLM", "OK"), ("TOOL", "ERROR"), ("LLM", "OK")]) ∧
    (("ERROR" : String) ≠ "OK") := by
  refine ⟨rfl, by decide⟩

/-- C9: every chat request completes its trace (status leaves IN_PROGRESS)
with a well-formed span tree: exactly one parentless AGENT span (first),
every other span's parent resolving to an earlier span of the same trace,
LLM spans pointing to the AGENT span and TOOL spans to an LLM span. -/
theorem claim_C9_span_tree (impls : ToolImpls) (gw : Gateway) (token : String)
    (req : AgentChatRequest) (tid : String) (st0 : TraceStorage) (now : Nat)
    (hfresh : tid ∉ st0.traces.map Prod.fst) (hmx : 1 ≤ st0.max_traces) :
    ∃ tr, (agent_chat impls gw token req tid st0 now).storage.get_trace tid =
      some tr ∧ tr.status ≠ "IN_PROGRESS" ∧ spanTreeOK tr.spans := by
  by_cases htok : token = ""
  · subst htok
    obtain ⟨L, hL, heq⟩ := agent_chat_no_token impls gw req tid st0 now hfresh hmx
    rw [heq]
    exact ⟨_, TraceStorage.get_trace_withTrace hL _, by simp,
      spanTreeOK_single rfl rfl⟩
  · cases hgw : gw (initialConversation req) with
    | error e =>
        obtain ⟨L, hL, heq⟩ := agent_chat_gw1_error impls gw token req tid st0
          now hfresh hmx htok e hgw
        rw [heq]
        exact ⟨_, TraceStorage.get_trace_withTrace hL _, by simp,
          spanTreeOK_pair rfl rfl rfl rfl rfl⟩
    | ok resp =>
        cases hch : resp.choices with
        | nil =>
            obtain ⟨L, hL, heq⟩ := agent_chat_no_choices impls gw token req tid
              st0 now hfresh hmx htok resp hgw hch
            rw [heq]
            exact ⟨_, TraceStorage.get_trace_withTrace hL _, by simp,
              spanTreeOK_pair rfl rfl rfl rfl rfl⟩
        | cons c cs =>
            cases htools : c.message.tool_calls.isEmpty with
            | true =>
                have htcnil : c.message.tool_calls = [] :=
                  List.isEmpty_iff.mp htools
                obtain ⟨L, hL, heq⟩ := agent_chat_direct_ok impls gw token req
                  tid st0 now hfresh hmx htok resp c cs hgw hch htcnil
                rw [heq]
                exact ⟨_, TraceStorage.get_trace_withTrace hL _, by simp,
                  spanTreeOK_pair rfl rfl rfl rfl rfl⟩
            | false =>
                cases hgw2 : gw (followupConversation req c.message
                    (toolResultsOf impls c.message.tool_calls)) with
                | error e =>
                    obtain ⟨L, hL, heq⟩ := agent_chat_tools_gw2_error impls gw
                      token req tid st0 now hfresh hmx htok resp c cs hgw hch
                      htools e hgw2
                    rw [heq]
                    refine ⟨_, TraceStorage.get_trace_withTrace hL _, by simp,
                      spanTreeOK_toolShape rfl rfl rfl rfl rfl rfl ?_ rfl rfl⟩
                    intro sp hsp
                    exact mem_toolSpans_fields sp hsp
                | ok fresp =>
                    cases hfch : fresp.choices with
                    | nil =>
                        obtain ⟨L, hL, heq⟩ := agent_chat_tools_no_choices impls
                          gw token req tid st0 now hfresh hmx htok resp c cs hgw
                          hch htools fresp hgw2 hfch
                        rw [heq]
                        refine ⟨_, TraceStorage.get_trace_withTrace hL _,
                          by simp,
                          spanTreeOK_toolShape rfl rfl rfl rfl rfl rfl ?_ rfl rfl⟩
                        intro sp hsp
                        exact mem_toolSpans_fields sp hsp
                    | cons fc fcs =>
                        obtain ⟨L, hL, heq⟩ := agent_chat_tools_ok impls gw
                          token req tid st0 now hfresh hmx htok resp c cs hgw
                          hch htools fresp fc fcs hgw2 hfch
                        rw [heq]
                        refine ⟨_, TraceStorage.get_trace_withTrace hL _,
                          by simp,
                          spanTreeOK_toolShape rfl rfl rfl rfl rfl rfl ?_ rfl rfl⟩
                        intro sp hsp
                        exact mem_toolSpans_fields sp hsp

/-- Witness for C9 at a concrete tool-calling run with a raising handler. -/
theorem claim_C9_span_tree_witness :
    ∃ tr, (agent_chat implsRaise gwToolsThenFinal "tok" reqSample "tid"
      ⟨100, []⟩ 5).storage.get_trace "tid" = some tr ∧
      tr.status ≠ "IN_PROGRESS" ∧ spanTreeOK tr.spans :=
  claim_C9_span_tree implsRaise gwToolsThenFinal "tok" reqSample "tid"
    ⟨100, []⟩ 5 (by simp) (by decide)
